import Mathlib

/-!
# Verification of the inventory-manager Excel register extraction core

This file is a shallow embedding, in Lean 4, of the spreadsheet-register
extraction pipeline of the repository:

* `src/utils/excel-parser/parser.ts`, first unit (`parseExcel` and its
  helpers: `normalizeHeader`, `isMainHeaderRow`, `normalizeMobile`,
  `detectMonthHeader`, `parsePlan`, `parseExcelDate`, `extractAttendance`,
  `computeDerivedDates`, `detectPlanColumn`);
* `src/utils/excel-parser/parser.ts`, second unit
  (`parseExcelToStructured` and its helpers: `normalizeMobile`,
  `tryParseDate`, `mapPlanRaw`, `detectMonthHeaderInRow`,
  `isColumnHeaderRow`, `isLikelyUpperName`);
* the unnamed `excel.ts` variant (`detectHeaderRow`, `tryParseDateFlex`).

Modelling conventions, fixed once for the whole file:

* The input is the `RawGrid` produced by the external sheet reader, i.e. an
  ordered list of rows of cell values (the reading of file bytes is outside
  the core, per the input contract of the specification).  A cell is either
  text or a numeric value; an out-of-range column access yields the
  JavaScript `undefined`, modelled as `Option.none`.
* ISO `yyyy-mm-dd` date strings are represented by the numeric key
  `y*10000 + m*100 + d` (and `yyyy-MM` month strings by `y*100 + m`).
  For the dates produced by the code (four-digit years, two-digit month and
  day) JavaScript's lexicographic string ordering, string equality, the
  7-character month prefix `slice(0, 7)` and the 4-character year prefix
  `slice(0, 4)` correspond exactly to numeric ordering, numeric equality,
  `key / 100` and `key / 10000` on keys.  A date string rendered from a key
  is never the empty string, so JavaScript truthiness on a date field is
  `Option.isSome` on its key.
* The host clock and host time zone are fixed: the time zone is UTC (so
  `toISOString().slice(0,10)` returns the civil date held by the `Date`
  value), and the "current year" used by fallbacks is passed explicitly as
  the `today` argument.
* `uuidv4()` is a fresh-identifier supply, passed explicitly as a function
  `ids : Nat -> String` consumed in call order; `new Date().toISOString()`
  timestamps are passed as a `now : String` argument.
* JavaScript exceptions are modelled with `Except String`; code that cannot
  throw is given a plain total type.
-/

/-! ## JavaScript value model -/

/-- A spreadsheet cell as delivered by the external grid reader: either text
or a numeric value (numeric serial dates).  With the reader options used by
the repository (`raw: false`, `defval: ''`) all present cells are text, but
the numeric branch of the cell interpreters is kept since the input contract
allows untyped cell values. -/
inductive Cell where
  | str (s : String)
  | num (n : Nat)
deriving DecidableEq, Repr

/-- A JavaScript value flowing through the row extractor: a present cell or
`undefined`/`null` (both modelled as `none`; the sources treat the two
identically at every site embedded here). -/
abbrev JsVal := Option Cell

/-- JavaScript `String(cell)` for a present cell. -/
def cellStr : Cell → String
  | .str s => s
  | .num n => toString n

/-- JavaScript `String(v)` on a possibly-undefined value. -/
def jsStr : JsVal → String
  | none => "undefined"
  | some c => cellStr c

/-- JavaScript truthiness of a value: `undefined`/`null`, the empty string
and the number 0 are falsy. -/
def jsTruthy : JsVal → Bool
  | none => false
  | some (.str s) => s ≠ ""
  | some (.num n) => n ≠ 0

/-- JavaScript truthiness of a number-or-null field (`planMonths`). -/
def jsTruthyNat : Option Nat → Bool
  | none => false
  | some n => n ≠ 0

/-- JavaScript `x || null` on a string-or-null field: the empty string
collapses to null. -/
def jsOrNullStr : Option String → Option String
  | some "" => none
  | x => x

/-- JavaScript `x || null` on a number-or-null field: 0 collapses to null. -/
def jsOrNullNat : Option Nat → Option Nat
  | some 0 => none
  | x => x

/-- One row of the raw grid. -/
abbrev Row := List Cell

/-- The raw grid: rows of cells, possibly ragged. -/
abbrev Grid := List Row

/-- JavaScript `row[i]`: `undefined` beyond the row's length. -/
def cellAt (row : Row) (i : Nat) : JsVal := row[i]?

/-! ## Character and string helpers (JavaScript semantics) -/

/-- The whitespace class used by JavaScript `trim` and `\s` for the ASCII
range (space, tab, line feed, carriage return, vertical tab, form feed). -/
def jsIsWs (c : Char) : Bool :=
  c = ' ' ∨ c = '\t' ∨ c = '\n' ∨ c = '\r' ∨ c = '\x0b' ∨ c = '\x0c'

/-- JavaScript `s.trim()`. -/
def jsTrim (s : String) : String :=
  ⟨(s.toList.dropWhile jsIsWs).reverse.dropWhile jsIsWs |>.reverse⟩

/-- JavaScript `s.replace(/\D/g, '')`: keep only decimal digits. -/
def digitsOf (s : String) : String :=
  ⟨s.toList.filter Char.isDigit⟩

/-- JavaScript `s.replace(/\s+/g, '')`: remove all whitespace. -/
def stripWs (s : String) : String :=
  ⟨s.toList.filter (fun c => ¬ jsIsWs c)⟩

/-- ASCII upper-casing, as JavaScript `toUpperCase` on the register's
vocabulary (character-wise, as `String.toUpper`). -/
def jsUpper (s : String) : String := ⟨s.toList.map Char.toUpper⟩

/-- ASCII lower-casing, as JavaScript `toLowerCase`. -/
def jsLower (s : String) : String := ⟨s.toList.map Char.toLower⟩

/-- JavaScript `s.startsWith(pre)`. -/
def strStartsWith (s pre : String) : Bool := pre.toList.isPrefixOf s.toList

/-- Split at every occurrence of a separator character
(`String.prototype.split` with a one-character separator). -/
def splitOnChar (sep : Char) : List Char → List (List Char)
  | [] => [[]]
  | c :: rest =>
    let r := splitOnChar sep rest
    if c = sep then [] :: r
    else
      match r with
      | h :: t => (c :: h) :: t
      | [] => [[c]]

/-- The numeric value of a list of decimal digits. -/
def digitsToNat (l : List Char) : Nat :=
  l.foldl (fun acc c => acc * 10 + (c.toNat - 48)) 0

/-- Substring containment on character lists (`String.prototype.includes`). -/
def containsSubList (needle : List Char) : List Char → Bool
  | [] => needle.isEmpty
  | c :: rest => needle.isPrefixOf (c :: rest) || containsSubList needle rest

/-- JavaScript `hay.includes(needle)`. -/
def strContains (hay needle : String) : Bool :=
  containsSubList needle.toList hay.toList

/-- Whether the string contains at least one decimal digit
(JavaScript `String(x).match(/\d/)`). -/
def hasDigit (s : String) : Bool := s.toList.any Char.isDigit

/-- Whether the string contains a run of at least `n` consecutive decimal
digits (JavaScript `match` with `\d{n,...}`). -/
def hasDigitRun (n : Nat) (s : String) : Bool :=
  let rec go : List Char → Nat → Bool
    | [], run => n ≤ run
    | c :: rest, run =>
      if c.isDigit then n ≤ run + 1 || go rest (run + 1)
      else go rest 0
  go s.toList 0

/-- JavaScript `parseInt(part, 10)` restricted to the non-negative inputs
the sources feed it: skip leading whitespace, read a maximal digit prefix,
`NaN` (here `none`) if there is none. -/
def jsParseInt (t0 : List Char) : Option Nat :=
  let t := t0.dropWhile jsIsWs
  let ds := t.takeWhile Char.isDigit
  if ds.isEmpty then none
  else some (digitsToNat ds)

/-! ## Date model -/

/-- A civil date `y-m-d` encoded as `y*10000 + m*100 + d`; stands for the
ISO string `yyyy-mm-dd` the sources pass around. -/
abbrev DateKey := Nat

/-- Build a date key. -/
def mkDateKey (y m d : Nat) : DateKey := y * 10000 + m * 100 + d

/-- The `yyyy-MM` month prefix (`slice(0, 7)`) of a date key. -/
def monthOfKey (k : DateKey) : Nat := k / 100

/-- The `yyyy` year prefix (`slice(0, 4)`) of a date key. -/
def yearOfKey (k : DateKey) : Nat := k / 10000

/-- Days in a month of the proleptic Gregorian calendar. -/
def daysInMonth (y m : Nat) : Nat :=
  if m = 2 then
    if y % 4 = 0 ∧ (y % 100 ≠ 0 ∨ y % 400 = 0) then 29 else 28
  else if m = 4 ∨ m = 6 ∨ m = 9 ∨ m = 11 then 30
  else 31

/-- Civil date from a day count (days since 0000-03-01 of the proleptic
Gregorian calendar); the standard era-based conversion. -/
def civilFromDays (n : Nat) : Nat × Nat × Nat :=
  let era := n / 146097
  let doe := n % 146097
  let yoe := (doe - doe / 1460 + doe / 36524 - doe / 146096) / 365
  let doy := doe - (365 * yoe + yoe / 4 - yoe / 100)
  let mp := (5 * doy + 2) / 153
  let d := doy - (153 * mp + 2) / 5 + 1
  let m := if mp < 10 then mp + 3 else mp - 9
  (era * 400 + yoe + (if m ≤ 2 then 1 else 0), m, d)

/-- Day count (days since 0000-03-01) of a civil date; inverse of
`civilFromDays`. -/
def daysFromCivil (y m d : Nat) : Nat :=
  let y' := y - (if m ≤ 2 then 1 else 0)
  let era := y' / 400
  let yoe := y' % 400
  let mp := if 2 < m then m - 3 else m + 9
  let doy := (153 * mp + 2) / 5 + d - 1
  era * 146097 + yoe * 365 + yoe / 4 - yoe / 100 + doy

/-- Date key from a day count. -/
def dateKeyOfDays (n : Nat) : DateKey :=
  let (y, m, d) := civilFromDays n
  mkDateKey y m d

/-- `date-fns` `addMonths` (also the derived-date month arithmetic of the
specification): move by whole calendar months, clamping the day of month to
the end of the target month. -/
def addMonthsKey (k : DateKey) (n : Nat) : DateKey :=
  let y := k / 10000
  let m := k / 100 % 100
  let d := k % 100
  let idx := y * 12 + (m - 1) + n
  let y' := idx / 12
  let m' := idx % 12 + 1
  mkDateKey y' m' (min d (daysInMonth y' m'))

/-- `XLSX.SSF.parse_date_code` composed with `new Date(y, m-1, d)` and
`toISOString().slice(0, 10)` (UTC host): Excel 1900-system serial to date
key.  `parse_date_code` returns null above serial 2958465 (9999-12-31);
serial 60 is the fictitious 1900-02-29, which `new Date` rolls over to
1900-03-01, so serials 60 and 61 both map to that day. -/
def excelSerialToKey (v : Nat) : Option DateKey :=
  if 2958465 < v then none
  else some (dateKeyOfDays (daysFromCivil 1899 12 31 + v - (if 61 ≤ v then 1 else 0)))

/-- Two-digit-year completion used by the host date parsers (`date-fns`
token `yy` and the legacy `Date` constructor both pick the year nearest the
current era: 50–99 → 19xx, 0–49 → 20xx for the register's data). -/
def completeYear2 (v : Nat) : Nat :=
  if 50 ≤ v then 1900 + v else 2000 + v

/-- Check that the listed characters are all decimal digits and the part is
non-empty and at most `maxLen` long. -/
def digitPart (maxLen : Nat) (cs : List Char) : Option Nat :=
  if cs.isEmpty ∨ maxLen < cs.length ∨ ¬ cs.all Char.isDigit then none
  else some (digitsToNat cs)

/-- Model of V8's `new Date(string)` for the string shapes that occur in
register sheets, returning the civil date under a UTC host:

* strict ISO `yyyy-mm-dd` (date-only forms are parsed as UTC and validated
  against the real calendar);
* the legacy US form `m/d/yyyy` (also `m/d/yy`), month 1–12 required, the
  day rolled over by `MakeDay` arithmetic when it exceeds the month length.

Every other string of the register vocabulary (names, header keywords,
plan tokens, attendance marks, bare digit runs of length ≥ 5) is an
Invalid Date on the host and is `none` here. -/
def jsNewDateKey (s : String) : Option DateKey :=
  match splitOnChar '-' s.toList with
  | [a, b, c] =>
    match digitPart 4 a, digitPart 2 b, digitPart 2 c with
    | some y, some m, some d =>
      if a.length = 4 ∧ b.length = 2 ∧ c.length = 2 ∧
          1 ≤ m ∧ m ≤ 12 ∧ 1 ≤ d ∧ d ≤ daysInMonth y m then
        some (mkDateKey y m d)
      else none
    | _, _, _ => none
  | _ =>
    match splitOnChar '/' s.toList with
    | [a, b, c] =>
      match digitPart 2 a, digitPart 2 b, digitPart 4 c with
      | some m, some d, some y =>
        let y' := if c.length ≤ 2 then completeYear2 y else y
        if 1 ≤ m ∧ m ≤ 12 ∧ 1 ≤ d ∧ d ≤ 31 then
          some (dateKeyOfDays (daysFromCivil y' m 1 + d - 1))
        else none
      | _, _, _ => none
    | _ => none

/-! ## List utilities with JavaScript semantics -/

/-- Insert into an ascending list, keeping duplicates (stable). -/
def insertLe (a : Nat) : List Nat → List Nat
  | [] => [a]
  | b :: t => if a ≤ b then a :: b :: t else b :: insertLe a t

/-- JavaScript `Array.prototype.sort()` on the ISO-date-string lists of the
sources: ascending, duplicates kept (lexicographic string order on the
equal-length date strings is numeric order on keys). -/
def jsSortAsc (l : List Nat) : List Nat :=
  l.foldr insertLe []

/-- JavaScript `Array.from(new Set(l))`: drop duplicates, keeping first
occurrences in order. -/
def jsSetDedup (l : List Nat) : List Nat :=
  let rec go (seen : List Nat) : List Nat → List Nat
    | [] => []
    | a :: t => if a ∈ seen then go seen t else a :: go (a :: seen) t
  go [] l

/-- Insert into a strictly ascending list, dropping a duplicate. -/
def insertSD (a : Nat) : List Nat → List Nat
  | [] => [a]
  | b :: t => if a < b then a :: b :: t else if a = b then b :: t else b :: insertSD a t

/-- The canonical sorted deduplicated form of a list (reference function for
the invariant proofs). -/
def sortDedup (l : List Nat) : List Nat :=
  l.foldr insertSD []

/-- A maximum of a list of naturals, `none` on the empty list. -/
def listMax? : List Nat → Option Nat
  | [] => none
  | a :: t => some (t.foldl max a)

/-! ## JavaScript object model (string-keyed records built row by row) -/

/-- A JavaScript object used as a record: association list in property
insertion order (the register's keys are not array indices, so insertion
order is enumeration order). -/
abbrev JsObj := List (String × JsVal)

/-- Property read: `o[k]`, `undefined` when absent. -/
def objGet (o : JsObj) (k : String) : JsVal :=
  match o.find? (fun p => p.1 == k) with
  | some p => p.2
  | none => none

/-- Property write: `o[k] = v`, overwriting in place or appending. -/
def objSet (o : JsObj) (k : String) (v : JsVal) : JsObj :=
  if o.any (fun p => p.1 == k) then
    o.map (fun p => if p.1 == k then (p.1, v) else p)
  else o ++ [(k, v)]

/-! ## First parser unit: `parseExcel` (parser.ts, first implementation) -/

/-- `MONTH_NAMES` of the first unit (names and abbreviations). -/
def monthNames1 : List String :=
  ["jan", "january", "feb", "february", "mar", "march", "apr", "april",
   "may", "jun", "june", "jul", "july", "aug", "august", "sep", "september",
   "oct", "october", "nov", "november", "dec", "december"]

/-- `COLUMN_MAP`: known header names to canonical field names. -/
def columnMapLookup : String → Option String
  | "name" => some "name"
  | "customer" => some "name"
  | "member name" => some "name"
  | "contact" => some "mobile"
  | "contact no." => some "mobile"
  | "mobile" => some "mobile"
  | "start date" => some "startDate"
  | "join date" => some "startDate"
  | "no. of months" => some "planRaw"
  | "duration" => some "planRaw"
  | "plan" => some "planRaw"
  | "due date" => some "nextDueDate"
  | _ => none

/-- `normalizeHeader`: lower-case, strip characters outside `[a-z0-9\s]`,
trim. -/
def normalizeHeader (s : String) : String :=
  jsTrim ⟨(jsLower s).toList.filter (fun c => c.isLower ∨ c.isDigit ∨ jsIsWs c)⟩

/-- `String(h || '')` on a present cell: falsy cells render as the empty
string. -/
def cellStrOr (c : Cell) : String :=
  if jsTruthy (some c) then cellStr c else ""

/-- `isMainHeaderRow`: at least 2 cells whose normalized text is a known
column name. -/
def isMainHeaderRow (row : Row) : Bool :=
  2 ≤ ((row.map (fun h => normalizeHeader (cellStrOr h))).filter
        (fun h => (columnMapLookup h).isSome)).length

/-- `normalizeMobile` (first unit): digits only; drop a leading `"91"` when
longer than 10 digits (`substring(2)`); keep the last 10 when still longer;
accept 8 or more digits.  Digit strings are ASCII, so `startsWith`,
`substring` and `length` coincide with the character-list operations used
here. -/
def normalizeMobile1 (v : JsVal) : Option String :=
  if ¬ jsTruthy v then none
  else
    let d0 := (digitsOf (jsStr v)).toList
    let d1 := if "91".toList.isPrefixOf d0 ∧ 10 < d0.length then d0.drop 2 else d0
    let d2 := if 10 < d1.length then d1.drop (d1.length - 10) else d1
    if 8 ≤ d2.length then some (String.mk d2) else none

/-- `detectMonthHeader` (first unit): first string cell whose lower-cased,
trimmed text contains a month name or abbreviation; returns it
upper-cased. -/
def detectMonthHeader1 (row : Row) : Option String :=
  row.findSome? (fun c =>
    match c with
    | .str s =>
        monthNames1.findSome? (fun m =>
          if strContains (jsTrim (jsLower s)) m then some (jsUpper m) else none)
    | .num _ => none)

/-- Remove the first occurrence of the character `M`
(JavaScript `s.replace('M', '')` after upper-casing). -/
def dropFirstM : List Char → List Char
  | [] => []
  | c :: t => if c = 'M' then t else c :: dropFirstM t

/-- `parsePlan` (first unit): upper-case, remove the first literal `M`, and
match the whole remaining string against the four duration codes. -/
def parsePlan (planRaw : String) : String × Option Nat :=
  if planRaw = "" then ("Unknown", none)
  else
    match String.mk (dropFirstM (jsUpper planRaw).toList) with
    | "1" => ("Monthly", some 1)
    | "3" => ("Quarterly", some 3)
    | "6" => ("Half-Yearly", some 6)
    | "12" => ("Yearly", some 12)
    | _ => ("Unknown", none)

/-- Reference-relative two-digit-year completion of the `date-fns` `yy`
token: the year with the given last two digits nearest the reference year
(inside `[today - 50, today + 49]`). -/
def dfYear2 (today v : Nat) : Nat :=
  let base := today - 50
  base + (v + 100 - base % 100) % 100

/-- Component order of a three-part `date-fns` format. -/
inductive DfOrder where
  | mdy
  | dmy
  | ymd
deriving DecidableEq

/-- Validate a parsed (year, month, day) triple against the calendar, as the
`date-fns` token validators do, and build the key. -/
def dfValid (y m d : Nat) : Option DateKey :=
  if 1 ≤ m ∧ m ≤ 12 ∧ 1 ≤ d ∧ d ≤ daysInMonth y m then some (mkDateKey y m d)
  else none

/-- One `date-fns` `parse` call for a three-part numeric format with the
given separator, component order and two-digit-year flag.  Numeric tokens
consume at most their pattern width and the whole input must be consumed. -/
def dfParseWith (sep : Char) (ord : DfOrder) (y2 : Bool) (today : Nat)
    (s : String) : Option DateKey :=
  match splitOnChar sep s.toList with
  | [a, b, c] =>
    match ord with
    | .ymd => do
        let y ← digitPart 4 a
        let m ← digitPart 2 b
        let d ← digitPart 2 c
        dfValid y m d
    | .mdy => do
        let m ← digitPart 2 a
        let d ← digitPart 2 b
        let y ← if y2 then (digitPart 2 c).map (dfYear2 today) else digitPart 4 c
        dfValid y m d
    | .dmy => do
        let d ← digitPart 2 a
        let m ← digitPart 2 b
        let y ← if y2 then (digitPart 2 c).map (dfYear2 today) else digitPart 4 c
        dfValid y m d
  | _ => none

/-- The string-format cascade of `parseExcelDate`: the seven `date-fns`
formats tried in source order (`MM/dd/yy`, `dd/MM/yy`, `yyyy-MM-dd`,
`MM-dd-yyyy`, `dd-MM-yyyy`, `MM/dd/yyyy`, `dd/MM/yyyy`), first valid
wins. -/
def parseExcelDateStr (today : Nat) (s : String) : Option DateKey :=
  (dfParseWith '/' .mdy true today s).orElse fun _ =>
  (dfParseWith '/' .dmy true today s).orElse fun _ =>
  (dfParseWith '-' .ymd false today s).orElse fun _ =>
  (dfParseWith '-' .mdy false today s).orElse fun _ =>
  (dfParseWith '-' .dmy false today s).orElse fun _ =>
  (dfParseWith '/' .mdy false today s).orElse fun _ =>
  (dfParseWith '/' .dmy false today s)

/-- `parseExcelDate` (first unit).  The numeric branch reads the serial
through `XLSX.SSF.parse_date_code` with no null guard, so an out-of-range
serial makes the property access `date.y` throw; the string branch tries the
`date-fns` formats; anything else is null. -/
def parseExcelDate (today : Nat) (v : JsVal) : Except String (Option DateKey) :=
  match v with
  | some (.num n) =>
    match excelSerialToKey n with
    | some k => .ok (some k)
    | none => .error "TypeError: Cannot read properties of null"
  | some (.str s) => .ok (parseExcelDateStr today s)
  | none => .ok none

/-- `extractAttendance` (first unit): every property of the normalized row
whose normalized key is not a mapped column, with a present value other than
the `xxxxxxxx` placeholder, is offered to the date parser; the hits are
deduplicated and sorted ascending. -/
def extractAttendance (row : JsObj) (today : Nat) : Except String (List DateKey) := do
  let mut hits : List DateKey := []
  for p in row do
    let nk := normalizeHeader p.1
    if (columnMapLookup nk).isNone ∧ p.2 ≠ none ∧ jsLower (jsStr p.2) ≠ "xxxxxxxx" then
      match (← parseExcelDate today p.2) with
      | some k => hits := hits ++ [k]
      | none => pure ()
  return jsSortAsc (jsSetDedup hits)

/-- `ImportReport` of the first unit (conflict entries never produced by the
parse itself). -/
structure Report1 where
  totalRows : Nat
  parsedRows : Nat
  created : Nat
  updated : Nat
  skipped : Nat
  conflicts : List String
deriving DecidableEq, Repr

/-- The report as initialised before any row is read. -/
def initReport : Report1 :=
  { totalRows := 0, parsedRows := 0, created := 0, updated := 0,
    skipped := 0, conflicts := [] }

/-- `Member` record of the first unit.  Dates are kept as keys; the
`nextDueDate` field holds the final course of the field (its transient raw
cell value is passed to `computeDerivedDates` separately). -/
structure Member1 where
  id : String
  name : String
  mobile : JsVal
  mobileNormalized : String
  planType : String
  planMonths : Option Nat
  startDate : Option DateKey
  nextDueDate : Option DateKey
  lastAttendance : Option DateKey
  nextExpectedAttendance : Option DateKey
  nextPaymentDueByPlan : Option DateKey
  attendance : List DateKey
  attendedMonths : List Nat
  totalPaid : Option Nat
  conflictInfo : Option String
  importMonth : Option String
  createdAt : String
  updatedAt : String
deriving DecidableEq, Repr

/-- `computeDerivedDates` (first unit): trailing dates from the attendance
list, explicit due date preferred when it parses, attended months
recomputed.  `nextDueRaw` is the raw cell the member's `nextDueDate` field
transiently held in the source. -/
def computeDerivedDates (today : Nat) (m : Member1) (nextDueRaw : JsVal) :
    Except String Member1 := do
  let m :=
    if m.attendance ≠ [] then
      let la := m.attendance.getLast?
      { m with
        lastAttendance := la
        nextExpectedAttendance := la.map (addMonthsKey · 1)
        nextPaymentDueByPlan :=
          if jsTruthyNat m.planMonths then la.map (addMonthsKey · (m.planMonths.getD 0))
          else m.nextPaymentDueByPlan }
    else m
  let m ←
    if jsTruthy nextDueRaw then do
      let parsed ← parseExcelDate today nextDueRaw
      pure { m with nextDueDate := parsed }
    else
      pure { m with nextDueDate := m.nextPaymentDueByPlan }
  return { m with attendedMonths := jsSortAsc (jsSetDedup (m.attendance.map monthOfKey)) }

/-- Whether a cell matches the first unit's plan regex `^\s*\d+\s*M?\s*$`
(case-insensitive). -/
def planRegex1 (s : String) : Bool :=
  let t := s.toList.dropWhile jsIsWs
  let ds := t.takeWhile Char.isDigit
  let rest := (t.drop ds.length).dropWhile jsIsWs
  !ds.isEmpty &&
    match rest with
    | [] => true
    | c :: r => (c == 'M' || c == 'm') && (r.dropWhile jsIsWs).isEmpty

/-- `detectPlanColumn` (first unit): count plan-regex matches per column over
the whole sheet and pick the lowest column index with the strictly largest
count, requiring at least 2 matches. -/
def detectPlanColumn (g : Grid) : Option Nat :=
  let maxCols := g.foldl (fun acc r => max acc r.length) 0
  let cnt := fun c =>
    (g.filter (fun row =>
      match cellAt row c with
      | some cell => jsTrim (cellStr cell) ≠ "" ∧ planRegex1 (cellStr cell)
      | none => false)).length
  (List.range maxCols).foldl
    (fun best c =>
      match best with
      | some b => if cnt b < cnt c ∧ 2 ≤ cnt c then some c else some b
      | none => if 2 ≤ cnt c then some c else none)
    none

/-- Replace a falsy (absent or empty) `importMonth` with the `"UNKNOWN"`
sentinel (the post-loop fallback of `parseExcel`). -/
def fixImportMonth (m : Member1) : Member1 :=
  match m.importMonth with
  | none => { m with importMonth := some "UNKNOWN" }
  | some s => if s = "" then { m with importMonth := some "UNKNOWN" } else m

/-- Loop state of the `parseExcel` data-row loop. -/
structure PE1St where
  members : List Member1
  parsedRows : Nat
  skipped : Nat
  uuidCtr : Nat

/-- JavaScript `a || b || c || d || ''`: first truthy value in the chain. -/
def jsOrChain : List JsVal → JsVal
  | [] => some (.str "")
  | v :: t => if jsTruthy v then v else jsOrChain t

/-- One data row of the `parseExcel` loop. -/
def parseExcelStep (ids : Nat → String) (now : String) (today : Nat)
    (planColIndex : Option Nat) (mainHeaders : List String)
    (currentImportMonth : Option String) (st : PE1St) (row : Row) :
    Except String PE1St := do
  if row.all (fun c => c = .str "") then
    return { st with skipped := st.skipped + 1 }
  let st := { st with parsedRows := st.parsedRows + 1 }
  let rowData : JsObj :=
    (mainHeaders.enum.foldl (fun o p => objSet o p.2 (cellAt row p.1)) [])
  let rowData :=
    match planColIndex with
    | some pc => if pc < row.length then objSet rowData "planRaw_detected" (cellAt row pc) else rowData
    | none => rowData
  let rowData :=
    (List.range' mainHeaders.length (row.length - mainHeaders.length)).foldl
      (fun o j => objSet o ("col_" ++ toString j) (cellAt row j)) rowData
  let normalizedRow : JsObj :=
    rowData.foldl
      (fun o p =>
        let nk := normalizeHeader p.1
        match columnMapLookup nk with
        | some mapped => objSet o mapped p.2
        | none => objSet o nk p.2)
      []
  let mobile := normalizeMobile1 (objGet normalizedRow "mobile")
  let name :=
    if jsTruthy (objGet normalizedRow "name") then
      some (jsTrim (jsStr (objGet normalizedRow "name")))
    else none
  if name = none ∧ mobile = none then
    return { st with skipped := st.skipped + 1 }
  match mobile with
  | none => return { st with skipped := st.skipped + 1 }
  | some mobileNorm =>
    let rawPlanCandidate :=
      jsOrChain [objGet normalizedRow "planRaw", objGet rowData "planRaw_detected",
                 objGet normalizedRow "col_5", objGet normalizedRow "col_6"]
    let planRawStr := if jsTruthy rawPlanCandidate then jsTrim (jsStr rawPlanCandidate) else ""
    let normalizedRow := objSet normalizedRow "planRaw" (some (.str planRawStr))
    let (planType, planMonths) := parsePlan planRawStr
    let attendance ← extractAttendance normalizedRow today
    let startDate ←
      if jsTruthy (objGet normalizedRow "startDate") then do
        match (← parseExcelDate today (objGet normalizedRow "startDate")) with
        | some k => pure (some k)
        | none => Except.error "RangeError: Invalid time value"
      else pure none
    let member : Member1 :=
      { id := ids st.uuidCtr
        name := (name.getD "")
        mobile := objGet normalizedRow "mobile"
        mobileNormalized := mobileNorm
        planType := planType
        planMonths := planMonths
        startDate := startDate
        nextDueDate := none
        lastAttendance := none
        nextExpectedAttendance := none
        nextPaymentDueByPlan := none
        attendance := attendance
        attendedMonths := []
        totalPaid := none
        conflictInfo := none
        importMonth := currentImportMonth
        createdAt := now
        updatedAt := now }
    let member ← computeDerivedDates today member (objGet normalizedRow "nextDueDate")
    return { st with members := st.members ++ [member], uuidCtr := st.uuidCtr + 1 }

/-- `parseExcel` (first unit).  When no row of the 10-row scan window
qualifies as the main header row, the function logs a warning and returns
the empty member list with the untouched report — a successful result, not
a thrown failure. -/
def parseExcelRun (g : Grid) (ids : Nat → String) (now : String) (today : Nat) :
    Except String (List Member1 × Report1) :=
  let planColIndex := detectPlanColumn g
  match (g.enum.take 10).find? (fun p => isMainHeaderRow p.2) with
  | none => .ok ([], initReport)
  | some (headerRowIndex, hrow) =>
    let mainHeaders := (hrow.map cellStrOr).filter (fun h => h ≠ "")
    let currentImportMonth := (g.take headerRowIndex).findSome? detectMonthHeader1
    let dataRows := g.drop (headerRowIndex + 1)
    (dataRows.foldlM
        (parseExcelStep ids now today planColIndex mainHeaders currentImportMonth)
        { members := [], parsedRows := 0, skipped := headerRowIndex + 1, uuidCtr := 0 }).map
      (fun st =>
        (st.members.map fixImportMonth,
         { totalRows := dataRows.length, parsedRows := st.parsedRows,
           created := 0, updated := 0, skipped := st.skipped, conflicts := [] }))

/-! ## Second parser unit: `parseExcelToStructured` (parser.ts, structured
implementation) -/

/-- Generic string-keyed association list with JavaScript object update
semantics (`membersMap`). -/
def aGet {β : Type} (m : List (String × β)) (k : String) : Option β :=
  (m.find? (fun p => p.1 == k)).map (fun p => p.2)

/-- `m[k] = v`: overwrite in place or append.  `Object.keys` enumeration
order is modelled as insertion order; the identity keys occurring in the
theorems below are 10-digit mobiles (above the array-index range) or
generated tokens, for which this matches the JavaScript ordering. -/
def aSet {β : Type} (m : List (String × β)) (k : String) (v : β) : List (String × β) :=
  if m.any (fun p => p.1 == k) then
    m.map (fun p => if p.1 == k then (p.1, v) else p)
  else m ++ [(k, v)]

/-- `normalizeMobile` (structured unit): keep digits; take the last 10 when
longer than 10 and starting with the `91` country code; otherwise accept any
digit string of length exactly 10 or at least 8 unchanged. -/
def normalizeMobile2 (v : JsVal) : Option String :=
  match v with
  | none => none
  | some c =>
    let digits := (digitsOf (cellStr c)).toList
    if 10 < digits.length ∧ "91".toList.isPrefixOf digits then
      some (String.mk (digits.drop (digits.length - 10)))
    else if digits.length = 10 then some (String.mk digits)
    else if 8 ≤ digits.length then some (String.mk digits)
    else none

/-- Exactly-`n`-digit numeric part. -/
def exactDigits (n : Nat) (cs : List Char) : Option Nat :=
  if cs.length = n ∧ cs.all Char.isDigit then some (digitsToNat cs)
  else none

/-- The explicit pattern fallbacks of `tryParseDate`, tried after the host
`Date` constructor: `^(\d{4})-(\d{2})-(\d{2})$` read as ISO, then
`^(\d{2})/(\d{2})/(\d{4})$` and `^(\d{2})-(\d{2})-(\d{4})$` both read as
day/month/year; each candidate is re-validated through `new Date(iso)`. -/
def tryParseDatePatterns (s : String) : Option DateKey :=
  match splitOnChar '-' s.toList with
  | [a, b, c] =>
    (match exactDigits 4 a, exactDigits 2 b, exactDigits 2 c with
     | some y, some m, some d => dfValid y m d
     | _, _, _ =>
       match exactDigits 2 a, exactDigits 2 b, exactDigits 4 c with
       | some d, some m, some y => dfValid y m d
       | _, _, _ => none)
  | _ =>
    match splitOnChar '/' s.toList with
    | [a, b, c] =>
      (match exactDigits 2 a, exactDigits 2 b, exactDigits 4 c with
       | some d, some m, some y => dfValid y m d
       | _, _, _ => none)
    | _ => none

/-- The string path of `tryParseDate`: trim; reject the empty string and any
string starting (case-insensitively) with `x`; then the host `Date`
constructor; then the explicit patterns. -/
def tryParseDateStr (s0 : String) : Option DateKey :=
  let s := jsTrim s0
  if s = "" ∨ strStartsWith (jsLower s) "x" then none
  else
    match jsNewDateKey s with
    | some k => some k
    | none => tryParseDatePatterns s

/-- `tryParseDate` (structured unit).  A numeric cell goes through the
guarded serial conversion (the try/catch and the `d && d.y` check make this
branch non-throwing); on failure the value falls through to the string
path.  Never throws. -/
def tryParseDate (v : JsVal) : Option DateKey :=
  match v with
  | none => none
  | some c =>
    match (match c with
           | .num n => excelSerialToKey n
           | .str _ => none) with
    | some k => some k
    | none => tryParseDateStr (cellStr c)

/-- Replace every occurrence of `MONTHS`/`MONTH`/`MTHS`/`MTH` by a single
`M`, scanning left to right (`replace(/MONTHS?|MTHS?/g, 'M')` after
upper-casing); fuelled recursion, each step consumes at least one
character. -/
def replaceMonthsGo : Nat → List Char → List Char
  | 0, l => l
  | _ + 1, [] => []
  | fuel + 1, 'M' :: 'O' :: 'N' :: 'T' :: 'H' :: 'S' :: rest => 'M' :: replaceMonthsGo fuel rest
  | fuel + 1, 'M' :: 'O' :: 'N' :: 'T' :: 'H' :: rest => 'M' :: replaceMonthsGo fuel rest
  | fuel + 1, 'M' :: 'T' :: 'H' :: 'S' :: rest => 'M' :: replaceMonthsGo fuel rest
  | fuel + 1, 'M' :: 'T' :: 'H' :: rest => 'M' :: replaceMonthsGo fuel rest
  | fuel + 1, c :: rest => c :: replaceMonthsGo fuel rest

/-- `replace(/MONTHS?|MTHS?/g, 'M')`. -/
def replaceMonths (l : List Char) : List Char := replaceMonthsGo l.length l

/-- `mapPlanRaw` (structured unit): upper-case, remove whitespace, collapse
month words to `M`, keep only the digits, and map the four duration codes;
everything else is the null pair. -/
def mapPlanRaw (pr : Option String) : Option String × Option Nat :=
  match pr with
  | none => (none, none)
  | some s =>
    if s = "" then (none, none)
    else
      match digitsOf (String.mk (replaceMonths (stripWs (jsUpper s)).toList)) with
      | "1" => (some "Monthly", some 1)
      | "3" => (some "Quarterly", some 3)
      | "6" => (some "Half-Yearly", some 6)
      | "12" => (some "Yearly", some 12)
      | _ => (none, none)

/-- `MONTHS`: the twelve full month names. -/
def monthsFull : List String :=
  ["january", "february", "march", "april", "may", "june", "july",
   "august", "september", "october", "november", "december"]

/-- `detectMonthHeaderInRow`: first cell whose lower-cased text contains a
full month name; returned upper-cased. -/
def detectMonthHeaderInRow (row : Row) : Option String :=
  row.findSome? (fun cell =>
    monthsFull.findSome? (fun m =>
      if strContains (jsLower (cellStr cell)) m then some (jsUpper m) else none))

/-- Header keywords of `isColumnHeaderRow`. -/
def headerKeywords2 : List String := ["NAME", "CONTACT", "DATE", "MONTHS", "SR NO"]

/-- `isColumnHeaderRow`: at least 3 string cells containing a header
keyword. -/
def isColumnHeaderRow (row : Row) : Bool :=
  3 ≤ (row.filter (fun cell =>
        match cell with
        | .str s => headerKeywords2.any (fun kw => strContains (jsUpper s) kw)
        | .num _ => false)).length

/-- `isLikelyUpperName`: the trimmed text matches `^[A-Z .\-]{2,200}$`. -/
def isLikelyUpperName (v : JsVal) : Bool :=
  match v with
  | none => false
  | some c =>
    let t := (jsTrim (cellStr c)).toList
    2 ≤ t.length && t.length ≤ 200 &&
      t.all (fun ch => ch.isUpper || ch == ' ' || ch == '.' || ch == '-')

/-- `planTokenRegex` = `^\s*(1|3|6|12)\s*(?:M|MONTHS?|MTHS?)?\s*$` (case
insensitive): a duration code, optionally followed by a month word, with
optional whitespace around each part. -/
def planTokenMatch (s : String) : Bool :=
  let t := (jsUpper s).toList.dropWhile jsIsWs
  let ds := t.takeWhile Char.isDigit
  let rest := (t.drop ds.length).dropWhile jsIsWs
  (ds = ['1'] || ds = ['3'] || ds = ['6'] || ds = ['1', '2']) &&
    (let rest2 : List Char :=
      match rest with
      | 'M' :: 'O' :: 'N' :: 'T' :: 'H' :: 'S' :: r => r
      | 'M' :: 'O' :: 'N' :: 'T' :: 'H' :: r => r
      | 'M' :: 'T' :: 'H' :: 'S' :: r => r
      | 'M' :: 'T' :: 'H' :: r => r
      | 'M' :: r => r
      | r => r
     (rest2.dropWhile jsIsWs).isEmpty)

/-- First match of `/(19|20)\d{2}/` in a character list. -/
def findYearGo : List Char → Option Nat
  | a :: b :: c :: d :: rest =>
    if (((a == '1') && (b == '9')) || ((a == '2') && (b == '0'))) && c.isDigit && d.isDigit then
      some (digitsToNat [a, b, c, d])
    else findYearGo (b :: c :: d :: rest)
  | _ => none

/-- First plausible 4-digit year token in a string. -/
def findYearToken (s : String) : Option Nat := findYearGo s.toList

/-- JavaScript `x || next` on an optional year: the number 0 is falsy. -/
def jsOrZero : Option Nat → Option Nat
  | some 0 => none
  | x => x

/-- A detected month-section header with its inferred year. -/
structure MonthHeaderInfo where
  row_idx : Nat
  month : String
  year : Nat
deriving DecidableEq, Repr

/-- Year inference step (a): a `(19|20)\d{2}` token in a string cell of the
header row itself (the `instanceof Date` branch is unreachable with the
text-producing reader and is omitted). -/
def inferYearA (row : Row) : Option Nat :=
  row.findSome? (fun cell =>
    match cell with
    | .str s => findYearToken s
    | .num _ => none)

/-- The 30-row lookahead window below a section header:
rows `idx+1 .. min(idx+30, len-1)` inclusive. -/
def lookaheadRows (g : Grid) (idx : Nat) : List Row :=
  (g.drop (idx + 1)).take (min (idx + 30) (g.length - 1) - idx)

/-- Year inference step (b): first parseable date in column 1 of the
lookahead window. -/
def inferYearB (g : Grid) (idx : Nat) : Option Nat :=
  (lookaheadRows g idx).findSome? (fun row => (tryParseDate (cellAt row 1)).map yearOfKey)

/-- Year inference step (c): first parseable date anywhere in the lookahead
window. -/
def inferYearC (g : Grid) (idx : Nat) : Option Nat :=
  (lookaheadRows g idx).findSome? (fun row =>
    row.findSome? (fun cell => (tryParseDate (some cell)).map yearOfKey))

/-- The detected month-section headers with inferred years: steps (a)–(c),
then the hardcoded 2023 for a first marker at physical row 1, then the
previous section's year, then the current year. -/
def headersWithYear (g : Grid) (today : Nat) : List MonthHeaderInfo :=
  let candidates := g.enum.filterMap (fun p =>
    (detectMonthHeaderInRow p.2).map (fun m => (p.1, m)))
  (candidates.enum.foldl
    (fun (acc : List MonthHeaderInfo × Option Nat) hp =>
      let h := hp.1
      let idx := hp.2.1
      let month := hp.2.2
      let inferred :=
        (jsOrZero (inferYearA (g.getD idx []))).orElse fun _ =>
        (jsOrZero (inferYearB g idx)).orElse fun _ =>
        (jsOrZero (inferYearC g idx)).orElse fun _ =>
        (if h = 0 ∧ idx = 1 then some 2023 else none)
      let year :=
        match inferred with
        | some v => v
        | none => (jsOrZero acc.2).getD today
      (acc.1 ++ [⟨idx, month, year⟩], some year))
    ([], none)).1

/-- The `(importMonth, importMonthISO)` section context of a row range. -/
structure ImportCtx where
  importMonth : String
  importMonthISO : String
deriving DecidableEq, Repr

/-- The unknown-section sentinel. -/
def unknownImport : ImportCtx := ⟨"UNKNOWN", ""⟩

/-- Zero-padded two-digit rendering (`padStart(2, '0')`). -/
def pad2 (n : Nat) : String :=
  if n < 10 then "0" ++ toString n else toString n

/-- The section context announced by a header (month number 0 when the label
is not a known month name, as JavaScript `indexOf` yields -1). -/
def importCtxOfHeader (h : MonthHeaderInfo) : ImportCtx :=
  let mmNum := ((monthsFull.indexOf (jsLower h.month)) + 1) % (monthsFull.length + 1)
  { importMonth := h.month ++ "-" ++ toString h.year
    importMonthISO := toString h.year ++ "-" ++ pad2 mmNum }

/-- The context directly assigned to a row by the section ranges: rows from
just below a header to just above the next one (or the end of the sheet). -/
def assignedImport (hs : List MonthHeaderInfo) (len : Nat) (r : Nat) : Option ImportCtx :=
  hs.enum.findSome? (fun p =>
    let start := p.2.row_idx + 1
    let e := match hs.get? (p.1 + 1) with
             | some h2 => h2.row_idx - 1
             | none => len - 1
    if start ≤ r ∧ r ≤ e then some (importCtxOfHeader p.2) else none)

/-- `rowToImport` after the forward fill: every row gets the nearest
preceding section's context, or the UNKNOWN sentinel. -/
def rowImportList (hs : List MonthHeaderInfo) (len : Nat) : List ImportCtx :=
  ((List.range len).foldl
    (fun (acc : List ImportCtx × Option ImportCtx) r =>
      match assignedImport hs len r with
      | some c => (acc.1 ++ [c], some c)
      | none => (acc.1 ++ [acc.2.getD unknownImport], acc.2))
    ([], none)).1

/-- Plan-token match count of one column over the whole sheet. -/
def colPlanCount (g : Grid) (c : Nat) : Nat :=
  (g.filter (fun row =>
    match cellAt row c with
    | some cell => planTokenMatch (jsTrim (cellStr cell))
    | none => false)).length

/-- Stable insertion for the descending-count sort (`sort((a, b) =>
b.count - a.count)`, stable as in ES2019). -/
def insertCountDesc (x : Nat × Nat) : List (Nat × Nat) → List (Nat × Nat)
  | [] => [x]
  | y :: t => if y.2 ≤ x.2 then x :: y :: t else y :: insertCountDesc x t

/-- Sort the per-column counts by count, descending, stable. -/
def sortCountsDesc (l : List (Nat × Nat)) : List (Nat × Nat) :=
  l.foldr insertCountDesc []

/-- The sheet's column count. -/
def gridCols (g : Grid) : Nat := g.foldl (fun acc r => max acc r.length) 0

/-- The per-column plan counts, sorted descending (the `colCounts` table of
the diagnostics). -/
def planColCounts (g : Grid) : List (Nat × Nat) :=
  sortCountsDesc ((List.range (gridCols g)).map (fun c => (c, colPlanCount g c)))

/-- `bestPlanCol`: top-count column when its count is at least 1, but
column 5 outright when it has at least one match. -/
def bestPlanCol (g : Grid) : Option Nat :=
  let counts := planColCounts g
  let b := match counts with
           | [] => none
           | x :: _ => if 1 ≤ x.2 then some x.1 else none
  if counts.any (fun x => x.1 = 5 ∧ 1 ≤ x.2) then some 5 else b

/-- The first row recognised as the column-header row, with its content. -/
def columnHeaderScan (g : Grid) : Option (Nat × Row) :=
  g.enum.find? (fun p => isColumnHeaderRow p.2)

/-- `columnHeaderRowIndex` (none when no row qualifies; the structured unit
then simply proceeds with no attendance columns). -/
def columnHeaderRowIndex (g : Grid) : Option Nat :=
  (columnHeaderScan g).map (fun p => p.1)

/-- `attendanceDateColumns`: the columns of the header row whose header cell
parses as a date, with those dates. -/
def attendanceDateColumns (g : Grid) : List (Nat × DateKey) :=
  match columnHeaderScan g with
  | none => []
  | some (_, row) =>
    row.enum.filterMap (fun p => (tryParseDate (some p.2)).map (fun d => (p.1, d)))

/-- The whole-sheet context precomputed before the row loop. -/
structure StructCtx where
  rowImport : List ImportCtx
  headerIdx : Option Nat
  attCols : List (Nat × DateKey)
  planCol : Option Nat

/-- Context construction (pass 1 of the structured parse). -/
def buildCtx (g : Grid) (today : Nat) : StructCtx :=
  { rowImport := rowImportList (headersWithYear g today) g.length
    headerIdx := columnHeaderRowIndex g
    attCols := attendanceDateColumns g
    planCol := bestPlanCol g }

/-- Name resolution of a data row: the fixed early column (index 1) when it
looks like an upper-case name, else the first of the first 10 columns that
does. -/
def rowName2 (row : Row) : Option String :=
  if 1 < row.length ∧ isLikelyUpperName (cellAt row 1) then
    some (jsTrim (jsStr (cellAt row 1)))
  else
    ((row.take 10).find? (fun c => isLikelyUpperName (some c))).map
      (fun c => jsTrim (cellStr c))

/-- Mobile-candidate resolution: column 2 when it contains a digit, else the
first of the first 12 columns containing a run of 6 digits. -/
def rowMobileCand (row : Row) : JsVal :=
  let mc : JsVal :=
    if 2 < row.length ∧ hasDigit (jsStr (cellAt row 2)) then cellAt row 2 else none
  if jsTruthy mc then mc
  else
    match (row.take 12).find? (fun c => hasDigitRun 6 (cellStr c)) with
    | some c => some c
    | none => none

/-- Plan-token resolution: the inferred plan column (validated against the
token pattern), else the first token-matching cell among columns 2–7. -/
def rowPlanRaw (ctx : StructCtx) (row : Row) : Option String :=
  let primary :=
    match ctx.planCol with
    | some bpc =>
      if bpc < row.length then
        match cellAt row bpc with
        | some v =>
          if jsTrim (cellStr v) ≠ "" ∧ planTokenMatch (jsTrim (cellStr v)) then
            some (jsTrim (cellStr v))
          else none
        | none => none
      else none
    | none => none
  match primary with
  | some p => some p
  | none =>
    (List.range' 2 (min 8 row.length - 2)).findSome? (fun c =>
      match cellAt row c with
      | some v => if planTokenMatch (jsTrim (cellStr v)) then some (jsTrim (cellStr v)) else none
      | none => none)

/-- Start-date resolution: first parseable date among the first 6 columns. -/
def rowStartDate (row : Row) : Option DateKey :=
  (List.range (min 6 row.length)).findSome? (fun c => tryParseDate (cellAt row c))

/-- The attendance-present marker test: the cell's trimmed, upper-cased text
is exactly `P`. -/
def isPresentMark (v : JsVal) : Bool :=
  match v with
  | none => false
  | some c => jsUpper (jsTrim (cellStr c)) = "P"

/-- The attendance dates collected from one row: one per detected date
column whose cell carries the present marker. -/
def rowAttDates (ctx : StructCtx) (row : Row) : List DateKey :=
  ctx.attCols.filterMap (fun p =>
    if isPresentMark (cellAt row p.1) then some p.2 else none)

/-- A long-form attendance event. -/
structure AttendanceRow where
  member_mobile : String
  member_name : String
  attendance_date : DateKey
  attended_month : Nat
  import_month : String
deriving DecidableEq, Repr

/-- The attendance events emitted from one row: one per present-marked
detected date column. -/
def rowEvents (ctx : StructCtx) (r : Nat) (row : Row) : List AttendanceRow :=
  let name := rowName2 row
  let mn := normalizeMobile2 (rowMobileCand row)
  let context := ctx.rowImport.getD r unknownImport
  ctx.attCols.filterMap (fun p =>
    if isPresentMark (cellAt row p.1) then
      some { member_mobile := mn.getD "NA"
             member_name := name.getD "UNKNOWN"
             attendance_date := p.2
             attended_month := monthOfKey p.2
             import_month := context.importMonth }
    else none)

/-- A manual-review flag row. -/
structure ManualReviewRow where
  row_index : Nat
  name : String
  mobile_candidate : String
  mobile_normalized : String
  planRaw : String
  importMonth : String
  reason : String
deriving DecidableEq, Repr

/-- A `membersMap` entry (the member aggregate; the two derived next-date
fields are attached by the finalisation pass). -/
structure MMember where
  id : String
  name : String
  mobile : String
  mobileNormalized : String
  planRaw : String
  planType : Option String
  planMonths : Option Nat
  startDate : Option DateKey
  attendance : List DateKey
  attendedMonths : List Nat
  lastAttendance : Option DateKey
  importMonth : String
  importMonthISO : String
  nextExpectedAttendance : Option DateKey := none
  nextPaymentDueByPlan : Option DateKey := none
deriving DecidableEq, Repr

/-- The mutable state of the structured row loop. -/
structure StState where
  membersMap : List (String × MMember)
  attendance : List AttendanceRow
  manualReview : List ManualReviewRow
  uuidCtr : Nat
deriving Repr

/-- The empty initial loop state. -/
def initStState : StState := ⟨[], [], [], 0⟩

/-- The fresh `membersMap` entry created for an identity key seen for the
first time. -/
def mkNewMember (memberId : String) (name : Option String) (mobileCandidate : JsVal)
    (mobileNormalized : Option String) (planRaw : Option String)
    (startDate : Option DateKey) (attDates : List DateKey) (context : ImportCtx) :
    MMember :=
  { id := memberId
    name := name.getD ""
    mobile := if jsTruthy mobileCandidate then jsStr mobileCandidate else "NA"
    mobileNormalized := mobileNormalized.getD "NA"
    planRaw := planRaw.getD ""
    planType := (mapPlanRaw planRaw).1
    planMonths := (mapPlanRaw planRaw).2
    startDate := startDate
    attendance := jsSortAsc (jsSetDedup attDates)
    attendedMonths := jsSortAsc (jsSetDedup (attDates.map monthOfKey))
    lastAttendance := if attDates ≠ [] then (jsSortAsc attDates).getLast? else none
    importMonth := context.importMonth
    importMonthISO := context.importMonthISO }

/-- The merge of a row's data into an existing `membersMap` entry: union the
attendance dates and months, keep the first non-null start date, keep the
first resolved plan. -/
def mergeMember (ex : MMember) (attDates : List DateKey) (startDate : Option DateKey)
    (planRaw : Option String) : MMember :=
  let ex1 := { ex with
    attendance := jsSortAsc (jsSetDedup (ex.attendance ++ attDates))
    attendedMonths := jsSortAsc (jsSetDedup (ex.attendedMonths ++ attDates.map monthOfKey)) }
  let ex2 := if ex1.startDate = none ∧ startDate ≠ none then
               { ex1 with startDate := startDate }
             else ex1
  if ex2.planRaw = "" ∧ planRaw ≠ none then
    { ex2 with planRaw := planRaw.getD "",
               planType := (mapPlanRaw planRaw).1,
               planMonths := (mapPlanRaw planRaw).2 }
  else ex2

/-- One iteration of the structured row loop (lines 700–815 of the
concatenated source): skip header/section/blank rows; resolve the row's
fields; emit attendance events; skip rows with no identity at all; create or
merge the member aggregate; flag for manual review. -/
def structStep (ids : Nat → String) (ctx : StructCtx) (st : StState) (p : Nat × Row) :
    StState :=
  let r := p.1
  let row := p.2
  if ctx.headerIdx = some r ∨ (detectMonthHeaderInRow row).isSome then st
  else if row.all (fun c => jsTrim (cellStr c) = "") then st
  else
    let context := ctx.rowImport.getD r unknownImport
    let name := rowName2 row
    let mobileCandidate := rowMobileCand row
    let mobileNormalized := normalizeMobile2 mobileCandidate
    let planRaw := rowPlanRaw ctx row
    let startDate := rowStartDate row
    let attDates := rowAttDates ctx row
    let st1 := { st with attendance := st.attendance ++ rowEvents ctx r row }
    if name = none ∧ mobileNormalized = none ∧ attDates = [] then st1
    else
      let memberId := match mobileNormalized with
                      | some mn => mn
                      | none => ids st1.uuidCtr
      let ctr := match mobileNormalized with
                 | some _ => st1.uuidCtr
                 | none => st1.uuidCtr + 1
      let newMap :=
        match aGet st1.membersMap memberId with
        | none =>
          aSet st1.membersMap memberId
            (mkNewMember memberId name mobileCandidate mobileNormalized planRaw
              startDate attDates context)
        | some ex =>
          aSet st1.membersMap memberId (mergeMember ex attDates startDate planRaw)
      let st2 := { st1 with membersMap := newMap, uuidCtr := ctr }
      if (planRaw = none ∨ (mapPlanRaw planRaw).1 = none) ∨ mobileNormalized = none then
        { st2 with manualReview := st2.manualReview ++
          [{ row_index := r + 1
             name := name.getD ""
             mobile_candidate := if jsTruthy mobileCandidate then jsStr mobileCandidate else ""
             mobile_normalized := mobileNormalized.getD "NA"
             planRaw := planRaw.getD ""
             importMonth := context.importMonth
             reason := (if planRaw = none then "missing_plan" else "unknown_plan") ++
                       (if mobileNormalized = none then ";no_mobile" else "") }] }
      else st2

/-- The full structured row loop (pass 2). -/
def structFold (g : Grid) (ids : Nat → String) (today : Nat) : StState :=
  g.enum.foldl (structStep ids (buildCtx g today)) initStState

/-- The finalisation applied to each `membersMap` entry: refresh
`lastAttendance` from the (possibly merged) attendance list, then derive the
next-date fields.  (`new Date` on the stored ISO string and the `date-fns`
calls are total here, so the source's try/catch never fires.) -/
def finalizeAgg (mm : MMember) : MMember :=
  let mm := if mm.attendance ≠ [] then { mm with lastAttendance := mm.attendance.getLast? }
            else mm
  match mm.lastAttendance with
  | some d =>
    { mm with
      nextExpectedAttendance := some (addMonthsKey d 1)
      nextPaymentDueByPlan :=
        if jsTruthyNat mm.planMonths then some (addMonthsKey d (mm.planMonths.getD 0))
        else none }
  | none => { mm with nextExpectedAttendance := none, nextPaymentDueByPlan := none }

/-- The member aggregates of a parse, after finalisation, in map order
(these are the records the output members are projected from). -/
def parseAggregates (g : Grid) (ids : Nat → String) (today : Nat) : List MMember :=
  (structFold g ids today).membersMap.map (fun p => finalizeAgg p.2)

/-- The output `Member` shape of the structured unit. -/
structure MemberOut where
  id : String
  name : String
  mobile : String
  mobileNormalized : String
  planRaw : String
  planType : Option String
  planMonths : Option Nat
  startDate : Option DateKey
  lastAttendance : Option DateKey
  nextExpectedAttendance : Option DateKey
  nextPaymentDueByPlan : Option DateKey
  attendedMonths : List Nat
  attendanceCount : Nat
  importMonth : String
  importMonthISO : String
  needsReview : Bool
deriving DecidableEq, Repr

/-- Projection of a finalised aggregate to the output record (the `|| null`
re-mappings on string and number fields made explicit; on date fields the
stored ISO strings are never empty, so `|| null` is the identity). -/
def mkOutMember (m : MMember) : MemberOut :=
  { id := m.id
    name := m.name
    mobile := m.mobile
    mobileNormalized := m.mobileNormalized
    planRaw := m.planRaw
    planType := jsOrNullStr m.planType
    planMonths := jsOrNullNat m.planMonths
    startDate := m.startDate
    lastAttendance := m.lastAttendance
    nextExpectedAttendance := m.nextExpectedAttendance
    nextPaymentDueByPlan := m.nextPaymentDueByPlan
    attendedMonths := m.attendedMonths
    attendanceCount := m.attendance.length
    importMonth := if m.importMonth = "" then "UNKNOWN" else m.importMonth
    importMonthISO := m.importMonthISO
    needsReview := false }

/-- The diagnostics summary. -/
structure Diag where
  detectedHeaders : List MonthHeaderInfo
  planBestCol : Option Nat
  planCounts : List (Nat × Nat)
  rawRows : Nat
  rawCols : Nat
deriving DecidableEq, Repr

/-- Diagnostics construction. -/
def mkDiag (g : Grid) (today : Nat) : Diag :=
  { detectedHeaders := headersWithYear g today
    planBestCol := bestPlanCol g
    planCounts := planColCounts g
    rawRows := g.length
    rawCols := gridCols g }

/-- The four output collections of the structured parse. -/
structure StructResult where
  members : List MemberOut
  attendance : List AttendanceRow
  manualReview : List ManualReviewRow
  diagnostics : Diag
deriving DecidableEq, Repr

/-- `parseExcelToStructured`, from the raw grid on (the file reading and its
existence check are the external reader's). -/
def parseExcelToStructured (g : Grid) (ids : Nat → String) (today : Nat) : StructResult :=
  let st := structFold g ids today
  { members := (parseAggregates g ids today).map mkOutMember
    attendance := st.attendance
    manualReview := st.manualReview
    diagnostics := mkDiag g today }

/-! ## Third variant (`excel.ts`): header fallback and flexible dates -/

/-- Header keywords of the `excel.ts` `detectHeaderRow`. -/
def headerKeywords3 : List String :=
  ["NAME", "CONTACT", "MOBILE", "NO.", "NO. OF MONTHS", "DURATION", "DATE",
   "START", "DUE", "SR NO"]

/-- `detectHeaderRow` (excel.ts): first row in the scan window with at least
2 keyword-bearing cells; row 0 when none qualifies. -/
def detectHeaderRow (g : Grid) (maxScanRows : Nat := 12) : Nat :=
  match (g.take maxScanRows).enum.find? (fun p =>
    2 ≤ (p.2.filter (fun c =>
          headerKeywords3.any (fun kw => strContains (jsUpper (cellStrOr c)) kw))).length) with
  | some p => p.1
  | none => 0

/-- A run of `x`/`X` of any length (`/^x+$/i`). -/
def isPureXRun (s : String) : Bool :=
  !s.isEmpty && s.toList.all (fun c => c == 'x' || c == 'X')

/-- JavaScript `new Date(year, monthIndex, day)` with rollover
normalisation, as a date key: `month` is 1-based here (0 rolls into the
previous December). -/
def jsMakeDate (y month d : Nat) : DateKey :=
  let idx := y * 12 + month - 1
  dateKeyOfDays (daysFromCivil (idx / 12) (idx % 12 + 1) 1 + d - 1)

/-- `tryParseDateFlex` (excel.ts): guarded serial conversion; reject blank
and pure `x`-runs only; host `Date` constructor; a slash fallback with
two-digit-year pivot at 50 and a first-component-over-12 swap; a dash
fallback. -/
def tryParseDateFlex (v : JsVal) : Option DateKey :=
  match v with
  | none => none
  | some c =>
    match (match c with
           | .num n => excelSerialToKey n
           | .str _ => none) with
    | some k => some k
    | none =>
      let s := jsTrim (cellStr c)
      if s = "" ∨ isPureXRun s then none
      else
        match jsNewDateKey s with
        | some k => some k
        | none =>
          let slashPath :=
            match splitOnChar '/' s.toList with
            | [a, b, cc] =>
              match jsParseInt a, jsParseInt b, jsParseInt cc with
              | some p1, some p2, some p3 =>
                let p3 := if p3 < 100 then p3 + (if 50 < p3 then 1900 else 2000) else p3
                let dm := if 12 < p1 then (p2, p1) else (p1, p2)
                some (jsMakeDate p3 dm.2 dm.1)
              | _, _, _ => none
            | _ => none
          match slashPath with
          | some k => some k
          | none =>
            match splitOnChar '-' s.toList with
            | [a, b, cc] =>
              if a.length = 4 then
                jsNewDateKey (String.mk (a ++ '-' :: b ++ '-' :: cc))
              else
                match jsParseInt a, jsParseInt b, jsParseInt cc with
                | some day, some month, some year => some (jsMakeDate year month day)
                | _, _, _ => none
            | _ => none

/-! ## Specification-side reference definitions

These follow the wording of the specification (not the code); the theorems
below compare them with the source-translated functions. -/

/-- Specification §4.4 step 8 / §3 AttendanceEvent: for every row that is
not the column-header row, not a month-section marker and not entirely
blank, and for every column previously identified as carrying a parseable
date in the header row, emit one AttendanceEvent when the row's cell in
that column equals the attendance-present marker (case-insensitive `P`). -/
def attendanceSpecC7 (g : Grid) (today : Nat) : List AttendanceRow :=
  let ctx := buildCtx g today
  (g.enum.map (fun p =>
    if ctx.headerIdx = some p.1 ∨ (detectMonthHeaderInRow p.2).isSome ∨
        p.2.all (fun c => jsTrim (cellStr c) = "") then []
    else
      ctx.attCols.filterMap (fun q =>
        if isPresentMark (cellAt p.2 q.1) then
          some { member_mobile := (normalizeMobile2 (rowMobileCand p.2)).getD "NA"
                 member_name := (rowName2 p.2).getD "UNKNOWN"
                 attendance_date := q.2
                 attended_month := monthOfKey q.2
                 import_month := (ctx.rowImport.getD p.1 unknownImport).importMonth }
        else none))).flatten

/-- Specification §4.1 `mapPlanToken`, digit-string table. -/
def planPairOfDigits : String → Option String × Option Nat
  | "1" => (some "Monthly", some 1)
  | "3" => (some "Quarterly", some 3)
  | "6" => (some "Half-Yearly", some 6)
  | "12" => (some "Yearly", some 12)
  | _ => (none, none)

/-- `l` ends with the suffix `suf`. -/
def endsWithL (suf l : List Char) : Bool :=
  suf.reverse.isPrefixOf l.reverse

/-- Specification §4.1 `mapPlanToken`: collapse a suffix matching
`month(s)`/`mth(s)` to a single trailing `M` (longest suffix first). -/
def collapseMonthSuffix (s : String) : String :=
  let l := s.toList
  if endsWithL "MONTHS".toList l then ⟨l.take (l.length - 6) ++ ['M']⟩
  else if endsWithL "MONTH".toList l then ⟨l.take (l.length - 5) ++ ['M']⟩
  else if endsWithL "MTHS".toList l then ⟨l.take (l.length - 4) ++ ['M']⟩
  else if endsWithL "MTH".toList l then ⟨l.take (l.length - 3) ++ ['M']⟩
  else s

/-- Specification §4.1 `mapPlanToken`, as worded: upper-case, strip
whitespace, collapse a month-word suffix to a trailing `M`, strip all
non-digits, then map through the duration table (everything else, including
the empty token, yields the null pair). -/
def mapPlanTokenSpec (pr : Option String) : Option String × Option Nat :=
  match pr with
  | none => (none, none)
  | some s => planPairOfDigits (digitsOf (collapseMonthSuffix (stripWs (jsUpper s))))

/-! ## Concrete inputs used by the witnesses and counterexamples -/

/-- A fresh-identifier supply. -/
def idsA : Nat → String := fun n => "uuid-a-" ++ toString n

/-- A different fresh-identifier supply. -/
def idsB : Nat → String := fun n => "uuid-b-" ++ toString n

/-- A grid with no qualifying header row in any scan window. -/
def gNoHeader : Grid := [[.str "hello", .str "world"]]

/-- A single non-blank row with no resolvable name, mobile or attendance. -/
def gReviewSkip : Grid := [[.str "abc"]]

/-- A single row with a name but no mobile: its member gets a generated
identifier. -/
def gNameOnly : Grid := [[.str "JOHN DOE"]]

/-- A sheet whose data row has an unparseable start-date cell. -/
def gBadStart : Grid :=
  [[.str "name", .str "mobile", .str "start date"],
   [.str "JOHN", .str "9876543210", .str "abc"]]

/-- A register sheet where the same member row (same mobile) appears twice,
both marked present in the same date column. -/
def gRegister : Grid :=
  [[.str "", .str "NAME", .str "CONTACT", .str "START DATE",
    .str "NO. OF MONTHS", .str "2023-02-01"],
   [.str "", .str "JOHN DOE", .str "9876543210", .str "", .str "3M", .str "P"],
   [.str "", .str "JOHN DOE", .str "9876543210", .str "", .str "3M", .str "P"]]

/-! ## Projections of the structured row step (used by the theorems) -/

/-- The attendance events one loop iteration appends: none for header,
section-marker or blank rows, else the row's present-marked events. -/
def attAppendOf (ctx : StructCtx) (p : Nat × Row) : List AttendanceRow :=
  if ctx.headerIdx = some p.1 ∨ (detectMonthHeaderInRow p.2).isSome then []
  else if p.2.all (fun c => jsTrim (cellStr c) = "") then []
  else rowEvents ctx p.1 p.2

/-- The manual-review item a flagged row appends. -/
def reviewItemOf (ctx : StructCtx) (r : Nat) (row : Row) : ManualReviewRow :=
  let name := rowName2 row
  let mobileCandidate := rowMobileCand row
  let mobileNormalized := normalizeMobile2 mobileCandidate
  let planRaw := rowPlanRaw ctx row
  { row_index := r + 1
    name := name.getD ""
    mobile_candidate := if jsTruthy mobileCandidate then jsStr mobileCandidate else ""
    mobile_normalized := mobileNormalized.getD "NA"
    planRaw := planRaw.getD ""
    importMonth := (ctx.rowImport.getD r unknownImport).importMonth
    reason := (if planRaw = none then "missing_plan" else "unknown_plan") ++
              (if mobileNormalized = none then ";no_mobile" else "") }

/-- The manual-review rows one loop iteration appends. -/
def mrAppendOf (ctx : StructCtx) (p : Nat × Row) : List ManualReviewRow :=
  if ctx.headerIdx = some p.1 ∨ (detectMonthHeaderInRow p.2).isSome then []
  else if p.2.all (fun c => jsTrim (cellStr c) = "") then []
  else if rowName2 p.2 = none ∧ normalizeMobile2 (rowMobileCand p.2) = none ∧
           rowAttDates ctx p.2 = [] then []
  else if (rowPlanRaw ctx p.2 = none ∨ (mapPlanRaw (rowPlanRaw ctx p.2)).1 = none) ∨
           normalizeMobile2 (rowMobileCand p.2) = none then
    [reviewItemOf ctx p.1 p.2]
  else []

/-- The identity key a non-skipped row's member entry is stored under: the
normalized mobile, else a fresh generated identifier. -/
def rowMemberKey (ids : Nat → String) (st : StState) (row : Row) : String :=
  match normalizeMobile2 (rowMobileCand row) with
  | some mn => mn
  | none => ids st.uuidCtr

/-- The member aggregate a non-skipped row stores under its identity key:
a fresh entry when the key is new, else the merge into the existing one. -/
def rowMemberVal (ids : Nat → String) (ctx : StructCtx) (st : StState) (p : Nat × Row) :
    MMember :=
  let row := p.2
  let k := rowMemberKey ids st row
  match aGet st.membersMap k with
  | none =>
    mkNewMember k (rowName2 row) (rowMobileCand row) (normalizeMobile2 (rowMobileCand row))
      (rowPlanRaw ctx row) (rowStartDate row) (rowAttDates ctx row)
      (ctx.rowImport.getD p.1 unknownImport)
  | some ex => mergeMember ex (rowAttDates ctx row) (rowStartDate row) (rowPlanRaw ctx row)

/-- The member-aggregate invariant maintained by the structured loop:
attendance strictly ascending, attended months the canonical sorted
deduplicated month set of the attendance dates, and a null last-attendance
on an empty attendance set. -/
def MMemberInv (mm : MMember) : Prop :=
  mm.attendance.Pairwise (· < ·) ∧
  mm.attendedMonths = sortDedup (mm.attendance.map monthOfKey) ∧
  (mm.attendance = [] → mm.lastAttendance = none)

/-- The loop-state invariant: every map entry satisfies the aggregate
invariant. -/
def StStateInv (st : StState) : Prop :=
  ∀ p ∈ st.membersMap, MMemberInv p.2

/-- The member aggregate the register sheet `gRegister` produces (used by
witnesses). -/
def mmJohnAgg : MMember :=
  { id := "9876543210", name := "JOHN DOE", mobile := "9876543210",
    mobileNormalized := "9876543210", planRaw := "3M", planType := some "Quarterly",
    planMonths := some 3, startDate := none, attendance := [20230201],
    attendedMonths := [202302], lastAttendance := some 20230201,
    importMonth := "UNKNOWN", importMonthISO := "",
    nextExpectedAttendance := some 20230301,
    nextPaymentDueByPlan := some 20230501 }

/-- The output member the register sheet `gRegister` produces (used by
witnesses). -/
def memberJohnOut : MemberOut :=
  { id := "9876543210", name := "JOHN DOE", mobile := "9876543210",
    mobileNormalized := "9876543210", planRaw := "3M", planType := some "Quarterly",
    planMonths := some 3, startDate := none, lastAttendance := some 20230201,
    nextExpectedAttendance := some 20230301, nextPaymentDueByPlan := some 20230501,
    attendedMonths := [202302], attendanceCount := 1, importMonth := "UNKNOWN",
    importMonthISO := "", needsReview := false }

/-! # Theorems -/

/-! ## Sorted-deduplicated list toolkit -/

theorem mem_insertLe {a x : Nat} : ∀ {l : List Nat}, x ∈ insertLe a l ↔ x = a ∨ x ∈ l := by
  intro l
  induction l with
  | nil => simp [insertLe]
  | cons b t ih =>
    by_cases h : a ≤ b
    · simp [insertLe, h]
    · simp [insertLe, h, ih]
      tauto

theorem pairwise_le_insertLe {a : Nat} :
    ∀ {l : List Nat}, l.Pairwise (· ≤ ·) → (insertLe a l).Pairwise (· ≤ ·) := by
  intro l
  induction l with
  | nil => simp [insertLe]
  | cons b t ih =>
    intro h
    rcases List.pairwise_cons.mp h with ⟨hb, ht⟩
    by_cases hab : a ≤ b
    · simp only [insertLe, if_pos hab]
      exact List.pairwise_cons.mpr ⟨by
        intro x hx
        rcases List.mem_cons.mp hx with rfl | hx
        · exact hab
        · exact le_trans hab (hb x hx), h⟩
    · simp only [insertLe, if_neg hab]
      refine List.pairwise_cons.mpr ⟨?_, ih ht⟩
      intro x hx
      rcases mem_insertLe.mp hx with rfl | hx
      · exact le_of_not_le hab
      · exact hb x hx

theorem pairwise_le_jsSortAsc (l : List Nat) : (jsSortAsc l).Pairwise (· ≤ ·) := by
  induction l with
  | nil => simp [jsSortAsc]
  | cons a t ih => exact pairwise_le_insertLe ih

theorem mem_jsSortAsc {x : Nat} : ∀ {l : List Nat}, x ∈ jsSortAsc l ↔ x ∈ l := by
  intro l
  induction l with
  | nil => simp [jsSortAsc]
  | cons a t ih =>
    show x ∈ insertLe a (jsSortAsc t) ↔ _
    simp [mem_insertLe, ih]

theorem perm_insertLe (a : Nat) (l : List Nat) : (insertLe a l).Perm (a :: l) := by
  induction l with
  | nil => simp [insertLe]
  | cons b t ih =>
    by_cases h : a ≤ b
    · simp [insertLe, h]
    · simp only [insertLe, if_neg h]
      exact (ih.cons b).trans (List.Perm.swap a b t)

theorem perm_jsSortAsc (l : List Nat) : (jsSortAsc l).Perm l := by
  induction l with
  | nil => simp [jsSortAsc]
  | cons a t ih => exact (perm_insertLe a (jsSortAsc t)).trans (ih.cons a)

theorem mem_jsSetDedup_go {x : Nat} :
    ∀ (l seen : List Nat), x ∈ jsSetDedup.go seen l ↔ x ∈ l ∧ x ∉ seen := by
  intro l
  induction l with
  | nil => simp [jsSetDedup.go]
  | cons a t ih =>
    intro seen
    by_cases h : a ∈ seen
    · rw [jsSetDedup.go, if_pos h, ih]
      constructor
      · rintro ⟨hx, hs⟩; exact ⟨.tail _ hx, hs⟩
      · rintro ⟨hx, hs⟩
        rcases List.mem_cons.mp hx with rfl | hx
        · exact absurd h hs
        · exact ⟨hx, hs⟩
    · rw [jsSetDedup.go, if_neg h]
      constructor
      · intro hx
        rcases List.mem_cons.mp hx with rfl | hx
        · exact ⟨List.mem_cons_self _ _, h⟩
        · rcases (ih _).mp hx with ⟨h1, h2⟩
          refine ⟨.tail _ h1, fun hs => h2 (List.mem_cons.mpr (.inr hs))⟩
      · rintro ⟨hx, hs⟩
        rcases List.mem_cons.mp hx with rfl | hx
        · exact List.mem_cons_self _ _
        · by_cases hxa : x = a
          · subst hxa; exact List.mem_cons_self _ _
          · exact List.mem_cons.mpr (.inr ((ih _).mpr
              ⟨hx, fun hm => by
                rcases List.mem_cons.mp hm with h' | h'
                · exact hxa h'
                · exact hs h'⟩))

theorem nodup_jsSetDedup_go :
    ∀ (l seen : List Nat), (jsSetDedup.go seen l).Nodup := by
  intro l
  induction l with
  | nil => intro seen; simp [jsSetDedup.go]
  | cons a t ih =>
    intro seen
    by_cases h : a ∈ seen
    · rw [jsSetDedup.go, if_pos h]; exact ih seen
    · rw [jsSetDedup.go, if_neg h]
      refine List.nodup_cons.mpr ⟨?_, ih _⟩
      intro hmem
      exact ((mem_jsSetDedup_go t _).mp hmem).2 (List.mem_cons_self _ _)

theorem mem_jsSetDedup {x : Nat} {l : List Nat} : x ∈ jsSetDedup l ↔ x ∈ l := by
  rw [jsSetDedup, mem_jsSetDedup_go]
  simp

theorem nodup_jsSetDedup (l : List Nat) : (jsSetDedup l).Nodup :=
  nodup_jsSetDedup_go l []

theorem mem_insertSD {a x : Nat} : ∀ {l : List Nat}, x ∈ insertSD a l ↔ x = a ∨ x ∈ l := by
  intro l
  induction l with
  | nil => simp [insertSD]
  | cons b t ih =>
    rcases lt_trichotomy a b with h | h | h
    · simp [insertSD, h, (by omega : ¬ a = b)]
    · subst h; simp [insertSD]
    · have h1 : ¬ a < b := by omega
      have h2 : ¬ a = b := by omega
      simp [insertSD, h1, h2, ih]
      tauto

theorem pairwise_lt_insertSD {a : Nat} :
    ∀ {l : List Nat}, l.Pairwise (· < ·) → (insertSD a l).Pairwise (· < ·) := by
  intro l
  induction l with
  | nil => simp [insertSD]
  | cons b t ih =>
    intro h
    rcases List.pairwise_cons.mp h with ⟨hb, ht⟩
    rcases lt_trichotomy a b with hab | hab | hab
    · simp only [insertSD, if_pos hab]
      refine List.pairwise_cons.mpr ⟨?_, h⟩
      intro x hx
      rcases List.mem_cons.mp hx with rfl | hx
      · exact hab
      · exact lt_trans hab (hb x hx)
    · subst hab; simp only [insertSD, lt_irrefl, if_neg (lt_irrefl a), if_pos rfl]
      exact h
    · have h1 : ¬ a < b := by omega
      have h2 : ¬ a = b := by omega
      simp only [insertSD, if_neg h1, if_neg h2]
      refine List.pairwise_cons.mpr ⟨?_, ih ht⟩
      intro x hx
      rcases mem_insertSD.mp hx with rfl | hx
      · exact hab
      · exact hb x hx

theorem pairwise_lt_sortDedup (l : List Nat) : (sortDedup l).Pairwise (· < ·) := by
  induction l with
  | nil => simp [sortDedup]
  | cons a t ih => exact pairwise_lt_insertSD ih

theorem mem_sortDedup {x : Nat} : ∀ {l : List Nat}, x ∈ sortDedup l ↔ x ∈ l := by
  intro l
  induction l with
  | nil => simp [sortDedup]
  | cons a t ih =>
    show x ∈ insertSD a (sortDedup t) ↔ _
    simp [mem_insertSD, ih]

/-- Two strictly ascending lists with the same members are equal. -/
theorem sorted_lt_eq_of_mem_iff :
    ∀ {l₁ l₂ : List Nat}, l₁.Pairwise (· < ·) → l₂.Pairwise (· < ·) →
      (∀ x, x ∈ l₁ ↔ x ∈ l₂) → l₁ = l₂ := by
  intro l₁
  induction l₁ with
  | nil =>
    intro l₂ _ _ hm
    cases l₂ with
    | nil => rfl
    | cons b t => exact absurd ((hm b).mpr (List.mem_cons_self _ _)) (by simp)
  | cons a t ih =>
    intro l₂ h₁ h₂ hm
    cases l₂ with
    | nil => exact absurd ((hm a).mp (List.mem_cons_self _ _)) (by simp)
    | cons b t₂ =>
      rcases List.pairwise_cons.mp h₁ with ⟨ha, ht⟩
      rcases List.pairwise_cons.mp h₂ with ⟨hb, ht₂⟩
      have hab : a = b := by
        rcases List.mem_cons.mp ((hm a).mp (List.mem_cons_self _ _)) with h | h
        · exact h
        · rcases List.mem_cons.mp ((hm b).mpr (List.mem_cons_self _ _)) with h' | h'
          · omega
          · have := ha b h'
            have := hb a h
            omega
      subst hab
      have : t = t₂ := by
        refine ih ht ht₂ ?_
        intro x
        constructor
        · intro hx
          rcases List.mem_cons.mp ((hm x).mp (.tail _ hx)) with rfl | h'
          · exact absurd (ha x hx) (lt_irrefl x)
          · exact h'
        · intro hx
          rcases List.mem_cons.mp ((hm x).mpr (.tail _ hx)) with rfl | h'
          · exact absurd (hb x hx) (lt_irrefl x)
          · exact h'
      rw [this]

/-- `Array.from(new Set(l)).sort()` produces the canonical sorted
deduplicated form. -/
theorem jsSortAsc_setDedup_eq (l : List Nat) :
    jsSortAsc (jsSetDedup l) = sortDedup l := by
  refine sorted_lt_eq_of_mem_iff ?_ (pairwise_lt_sortDedup l) ?_
  · have hle := pairwise_le_jsSortAsc (jsSetDedup l)
    have hnd : (jsSortAsc (jsSetDedup l)).Nodup :=
      ((perm_jsSortAsc (jsSetDedup l)).nodup_iff).mpr (nodup_jsSetDedup l)
    exact (hle.and hnd).imp (fun h => lt_of_le_of_ne h.1 h.2)
  · intro x
    rw [mem_jsSortAsc, mem_jsSetDedup, mem_sortDedup]

/-- Canonicalisation depends only on membership. -/
theorem sortDedup_eq_of_mem_iff {l₁ l₂ : List Nat}
    (h : ∀ x, x ∈ l₁ ↔ x ∈ l₂) : sortDedup l₁ = sortDedup l₂ :=
  sorted_lt_eq_of_mem_iff (pairwise_lt_sortDedup l₁) (pairwise_lt_sortDedup l₂)
    (fun x => by rw [mem_sortDedup, mem_sortDedup]; exact h x)

/-- A canonicalised empty list comes from an empty list. -/
theorem sortDedup_eq_nil_iff {l : List Nat} : sortDedup l = [] ↔ l = [] := by
  constructor
  · intro h
    cases l with
    | nil => rfl
    | cons a t =>
      have : a ∈ sortDedup (a :: t) := mem_sortDedup.mpr (List.mem_cons_self _ _)
      rw [h] at this
      exact absurd this (by simp)
  · rintro rfl; rfl

/-! ## Association-list lemmas -/

theorem aSet_mem {β : Type} {m : List (String × β)} {k : String} {v : β} :
    ∀ q ∈ aSet m k v, q ∈ m ∨ q.2 = v := by
  intro q hq
  unfold aSet at hq
  split at hq
  · rcases List.mem_map.mp hq with ⟨p, hp, hpq⟩
    by_cases h : p.1 == k
    · right; rw [if_pos h] at hpq; rw [← hpq]
    · left; rw [if_neg h] at hpq; rw [← hpq]; exact hp
  · rcases List.mem_append.mp hq with h | h
    · exact .inl h
    · right; rcases List.mem_singleton.mp h with rfl; rfl

theorem aGet_mem {β : Type} {m : List (String × β)} {k : String} {v : β}
    (h : aGet m k = some v) : ∃ k', (k', v) ∈ m := by
  unfold aGet at h
  rcases hf : m.find? (fun p => p.1 == k) with _ | p
  · rw [hf] at h; simp at h
  · rw [hf] at h
    simp at h
    refine ⟨p.1, ?_⟩
    have := List.mem_of_find?_eq_some hf
    rw [← h]
    exact this

theorem find?_beq_append_self {β : Type} {m : List (String × β)} {k : String} {v : β}
    (h : ∀ q ∈ m, (q.1 == k) = false) :
    ((m ++ [(k, v)]).find? (fun p => p.1 == k)) = some (k, v) := by
  induction m with
  | nil => simp [List.find?]
  | cons p t ih =>
    have hp : (p.1 == k) = false := h p (List.mem_cons_self _ _)
    simp only [List.cons_append, List.find?, hp]
    exact ih (fun q hq => h q (List.mem_cons.mpr (.inr hq)))

theorem find?_beq_map_replace {β : Type} {m : List (String × β)} {k : String} {v : β}
    (h : m.any (fun p => p.1 == k) = true) :
    Option.map (fun p => p.2)
      ((m.map (fun p => if p.1 == k then (p.1, v) else p)).find? (fun p => p.1 == k)) =
      some v := by
  induction m with
  | nil => simp at h
  | cons p t ih =>
    by_cases hpk : p.1 = k
    · have hb : (p.1 == k) = true := by simp [hpk]
      simp [List.find?, hb]
    · have hb : (p.1 == k) = false := by simp [hpk]
      have h' : t.any (fun q => q.1 == k) = true := by
        simpa [List.any_cons, hb] using h
      simp only [List.map_cons, hb, Bool.false_eq_true, if_false, List.find?, hb]
      exact ih h'

theorem aGet_aSet_self {β : Type} {m : List (String × β)} {k : String} {v : β} :
    aGet (aSet m k v) k = some v := by
  unfold aGet aSet
  split
  · rename_i hany
    exact find?_beq_map_replace hany
  · rename_i hany
    have hall : ∀ q ∈ m, (q.1 == k) = false := by
      intro q hq
      rcases Bool.eq_false_or_eq_true (q.1 == k) with h | h
      · exact absurd (List.any_of_mem hq h) hany
      · exact h
    rw [find?_beq_append_self hall]
    rfl

/-! ## Invariant preservation in the structured loop -/


theorem mergeMember_attendance (ex : MMember) (attDates : List DateKey)
    (startDate : Option DateKey) (planRaw : Option String) :
    (mergeMember ex attDates startDate planRaw).attendance =
      jsSortAsc (jsSetDedup (ex.attendance ++ attDates)) := by
  unfold mergeMember
  dsimp only
  split <;> split <;> rfl

theorem mergeMember_attendedMonths (ex : MMember) (attDates : List DateKey)
    (startDate : Option DateKey) (planRaw : Option String) :
    (mergeMember ex attDates startDate planRaw).attendedMonths =
      jsSortAsc (jsSetDedup (ex.attendedMonths ++ attDates.map monthOfKey)) := by
  unfold mergeMember
  dsimp only
  split <;> split <;> rfl

theorem mergeMember_lastAttendance (ex : MMember) (attDates : List DateKey)
    (startDate : Option DateKey) (planRaw : Option String) :
    (mergeMember ex attDates startDate planRaw).lastAttendance = ex.lastAttendance := by
  unfold mergeMember
  dsimp only
  split <;> split <;> rfl

/-- Membership in a mapped list is membership of preimages. -/
theorem mem_map_congr_of_mem_iff {l₁ l₂ : List Nat} (f : Nat → Nat)
    (h : ∀ x, x ∈ l₁ ↔ x ∈ l₂) : ∀ y, y ∈ l₁.map f ↔ y ∈ l₂.map f := by
  intro y
  constructor
  · intro hy
    rcases List.mem_map.mp hy with ⟨a, ha, rfl⟩
    exact List.mem_map.mpr ⟨a, (h a).mp ha, rfl⟩
  · intro hy
    rcases List.mem_map.mp hy with ⟨a, ha, rfl⟩
    exact List.mem_map.mpr ⟨a, (h a).mpr ha, rfl⟩

theorem mmInv_mkNewMember (memberId : String) (name : Option String)
    (mobileCandidate : JsVal) (mobileNormalized : Option String)
    (planRaw : Option String) (startDate : Option DateKey)
    (attDates : List DateKey) (context : ImportCtx) :
    MMemberInv (mkNewMember memberId name mobileCandidate mobileNormalized planRaw
      startDate attDates context) := by
  unfold mkNewMember MMemberInv
  refine ⟨?_, ?_, ?_⟩
  · simp only [jsSortAsc_setDedup_eq]
    exact pairwise_lt_sortDedup attDates
  · simp only [jsSortAsc_setDedup_eq]
    exact sortDedup_eq_of_mem_iff (mem_map_congr_of_mem_iff monthOfKey
      (fun x => (mem_sortDedup (l := attDates)).symm))
  · simp only [jsSortAsc_setDedup_eq]
    intro hnil
    have : attDates = [] := sortDedup_eq_nil_iff.mp hnil
    simp [this]

theorem mmInv_mergeMember (ex : MMember) (hinv : MMemberInv ex)
    (attDates : List DateKey) (startDate : Option DateKey) (planRaw : Option String) :
    MMemberInv (mergeMember ex attDates startDate planRaw) := by
  rcases hinv with ⟨hpw, hmo, hla⟩
  refine ⟨?_, ?_, ?_⟩
  · rw [mergeMember_attendance, jsSortAsc_setDedup_eq]
    exact pairwise_lt_sortDedup _
  · rw [mergeMember_attendance, mergeMember_attendedMonths, jsSortAsc_setDedup_eq,
      jsSortAsc_setDedup_eq]
    refine sortDedup_eq_of_mem_iff ?_
    intro x
    rw [List.mem_append, hmo, mem_sortDedup]
    constructor
    · rintro (hx | hx)
      · rcases List.mem_map.mp hx with ⟨a, ha, rfl⟩
        exact List.mem_map.mpr ⟨a, mem_sortDedup.mpr (List.mem_append.mpr (.inl ha)), rfl⟩
      · rcases List.mem_map.mp hx with ⟨a, ha, rfl⟩
        exact List.mem_map.mpr ⟨a, mem_sortDedup.mpr (List.mem_append.mpr (.inr ha)), rfl⟩
    · intro hx
      rcases List.mem_map.mp hx with ⟨a, ha, rfl⟩
      rcases List.mem_append.mp (mem_sortDedup.mp ha) with ha | ha
      · exact .inl (List.mem_map.mpr ⟨a, ha, rfl⟩)
      · exact .inr (List.mem_map.mpr ⟨a, ha, rfl⟩)
  · rw [mergeMember_attendance, mergeMember_lastAttendance, jsSortAsc_setDedup_eq]
    intro h
    exact hla (List.append_eq_nil.mp (sortDedup_eq_nil_iff.mp h)).1

/-- One loop iteration preserves the state invariant. -/
theorem stStateInv_structStep (ids : Nat → String) (ctx : StructCtx) (st : StState)
    (p : Nat × Row) (h : StStateInv st) : StStateInv (structStep ids ctx st p) := by
  unfold structStep
  dsimp only
  split
  · exact h
  · split
    · exact h
    · split
      · exact h
      · split
        · rename_i heq
          intro q hq
          simp only at hq
          split at hq
          · rcases aSet_mem q hq with hin | hval
            · exact h q hin
            · rw [hval]; exact mmInv_mkNewMember _ _ _ _ _ _ _ _
          · rcases aSet_mem q hq with hin | hval
            · exact h q hin
            · rename_i ex hex
              rw [hval]
              refine mmInv_mergeMember ex ?_ _ _ _
              rcases aGet_mem hex with ⟨k', hk⟩
              exact h (k', ex) hk
        · intro q hq
          simp only at hq
          split at hq
          · rcases aSet_mem q hq with hin | hval
            · exact h q hin
            · rw [hval]; exact mmInv_mkNewMember _ _ _ _ _ _ _ _
          · rcases aSet_mem q hq with hin | hval
            · exact h q hin
            · rename_i ex hex
              rw [hval]
              refine mmInv_mergeMember ex ?_ _ _ _
              rcases aGet_mem hex with ⟨k', hk⟩
              exact h (k', ex) hk

theorem stStateInv_foldl (ids : Nat → String) (ctx : StructCtx) :
    ∀ (l : List (Nat × Row)) (st : StState),
      StStateInv st → StStateInv (l.foldl (structStep ids ctx) st) := by
  intro l
  induction l with
  | nil => intro st h; exact h
  | cons x t ih => intro st h; exact ih _ (stStateInv_structStep ids ctx st x h)

theorem stStateInv_structFold (g : Grid) (ids : Nat → String) (today : Nat) :
    StStateInv (structFold g ids today) := by
  refine stStateInv_foldl _ _ _ _ ?_
  intro q hq
  simp [initStState] at hq

theorem finalizeAgg_attendance (mm : MMember) :
    (finalizeAgg mm).attendance = mm.attendance := by
  unfold finalizeAgg
  dsimp only
  split <;> split <;> rfl

theorem finalizeAgg_attendedMonths (mm : MMember) :
    (finalizeAgg mm).attendedMonths = mm.attendedMonths := by
  unfold finalizeAgg
  dsimp only
  split <;> split <;> rfl

theorem finalizeAgg_lastAttendance (mm : MMember) (h : MMemberInv mm) :
    (finalizeAgg mm).lastAttendance = mm.attendance.getLast? := by
  rcases h with ⟨-, -, hla⟩
  unfold finalizeAgg
  dsimp only
  by_cases hnil : mm.attendance = []
  · rw [if_neg (by simp [hnil])]
    rw [hnil]
    split <;> rename_i heq
    · rw [hla hnil] at heq
      exact absurd heq (by simp)
    · simp [hla hnil]
  · rw [if_pos hnil]
    split <;> rename_i heq <;> simp only at heq
    · simp only [heq]
    · exact absurd (List.getLast?_eq_none_iff.mp heq) hnil

/-! ## Derived-date shape of a finalised output member -/

theorem mkOut_derive_fields (mm' : MMember) :
    (mkOutMember
      (match mm'.lastAttendance with
       | some d =>
         { mm' with
           nextExpectedAttendance := some (addMonthsKey d 1)
           nextPaymentDueByPlan :=
             if jsTruthyNat mm'.planMonths then
               some (addMonthsKey d (mm'.planMonths.getD 0))
             else none }
       | none =>
         { mm' with nextExpectedAttendance := none,
                    nextPaymentDueByPlan := none })).nextPaymentDueByPlan =
      (match jsOrNullNat mm'.planMonths, mm'.lastAttendance with
       | some p, some d => some (addMonthsKey d p)
       | _, _ => none) ∧
    (mkOutMember
      (match mm'.lastAttendance with
       | some d =>
         { mm' with
           nextExpectedAttendance := some (addMonthsKey d 1)
           nextPaymentDueByPlan :=
             if jsTruthyNat mm'.planMonths then
               some (addMonthsKey d (mm'.planMonths.getD 0))
             else none }
       | none =>
         { mm' with nextExpectedAttendance := none,
                    nextPaymentDueByPlan := none })).planMonths =
      jsOrNullNat mm'.planMonths ∧
    (mkOutMember
      (match mm'.lastAttendance with
       | some d =>
         { mm' with
           nextExpectedAttendance := some (addMonthsKey d 1)
           nextPaymentDueByPlan :=
             if jsTruthyNat mm'.planMonths then
               some (addMonthsKey d (mm'.planMonths.getD 0))
             else none }
       | none =>
         { mm' with nextExpectedAttendance := none,
                    nextPaymentDueByPlan := none })).lastAttendance =
      mm'.lastAttendance := by
  rcases hla : mm'.lastAttendance with _ | d
  · rcases hpm : mm'.planMonths with _ | n
    · simp [mkOutMember, jsOrNullNat, jsTruthyNat, hla, hpm]
    · rcases n with _ | n <;> simp [mkOutMember, jsOrNullNat, jsTruthyNat, hla, hpm]
  · rcases hpm : mm'.planMonths with _ | n
    · simp [mkOutMember, jsOrNullNat, jsTruthyNat, hla, hpm]
    · rcases n with _ | n <;> simp [mkOutMember, jsOrNullNat, jsTruthyNat, hla, hpm]

theorem mkOut_finalize_npd (mm : MMember) :
    (mkOutMember (finalizeAgg mm)).nextPaymentDueByPlan =
      match (mkOutMember (finalizeAgg mm)).planMonths,
            (mkOutMember (finalizeAgg mm)).lastAttendance with
      | some p, some d => some (addMonthsKey d p)
      | _, _ => none := by
  unfold finalizeAgg
  dsimp only
  rcases mkOut_derive_fields
    (if mm.attendance ≠ [] then { mm with lastAttendance := mm.attendance.getLast? }
     else mm) with ⟨h1, h2, h3⟩
  rw [h1, h2, h3]

/-! ## Projections of the loop over attendance and manual review -/

theorem structStep_attendance (ids : Nat → String) (ctx : StructCtx) (st : StState)
    (p : Nat × Row) :
    (structStep ids ctx st p).attendance = st.attendance ++ attAppendOf ctx p := by
  unfold structStep attAppendOf
  dsimp only
  by_cases h1 : ctx.headerIdx = some p.1 ∨ (detectMonthHeaderInRow p.2).isSome
  · rw [if_pos h1, if_pos h1]
    simp
  · rw [if_neg h1, if_neg h1]
    by_cases h2 : (p.2.all (fun c => jsTrim (cellStr c) = "")) = true
    · rw [if_pos h2, if_pos h2]
      simp
    · rw [if_neg h2, if_neg h2]
      by_cases h3 : rowName2 p.2 = none ∧ normalizeMobile2 (rowMobileCand p.2) = none ∧
          rowAttDates ctx p.2 = []
      · rw [if_pos h3]
      · rw [if_neg h3]
        split
        · split <;> rfl
        · split <;> rfl

theorem structStep_manualReview (ids : Nat → String) (ctx : StructCtx) (st : StState)
    (p : Nat × Row) :
    (structStep ids ctx st p).manualReview = st.manualReview ++ mrAppendOf ctx p := by
  unfold structStep mrAppendOf reviewItemOf
  dsimp only
  by_cases h1 : ctx.headerIdx = some p.1 ∨ (detectMonthHeaderInRow p.2).isSome
  · rw [if_pos h1, if_pos h1]
    simp
  · rw [if_neg h1, if_neg h1]
    by_cases h2 : (p.2.all (fun c => jsTrim (cellStr c) = "")) = true
    · rw [if_pos h2, if_pos h2]
      simp
    · rw [if_neg h2, if_neg h2]
      by_cases h3 : rowName2 p.2 = none ∧ normalizeMobile2 (rowMobileCand p.2) = none ∧
          rowAttDates ctx p.2 = []
      · rw [if_pos h3, if_pos h3]
        simp
      · rw [if_neg h3, if_neg h3]
        by_cases h4 : (rowPlanRaw ctx p.2 = none ∨ (mapPlanRaw (rowPlanRaw ctx p.2)).1 = none) ∨
            normalizeMobile2 (rowMobileCand p.2) = none
        · rw [if_pos h4]
          split <;> rw [if_pos h4]
        · rw [if_neg h4]
          split <;> (rw [if_neg h4]; simp)

theorem foldl_structStep_attendance (ids : Nat → String) (ctx : StructCtx) :
    ∀ (l : List (Nat × Row)) (st : StState),
      (l.foldl (structStep ids ctx) st).attendance =
        st.attendance ++ (l.map (attAppendOf ctx)).flatten := by
  intro l
  induction l with
  | nil => intro st; simp
  | cons x t ih =>
    intro st
    rw [List.foldl_cons, ih, structStep_attendance]
    simp

theorem foldl_structStep_manualReview (ids : Nat → String) (ctx : StructCtx) :
    ∀ (l : List (Nat × Row)) (st : StState),
      (l.foldl (structStep ids ctx) st).manualReview =
        st.manualReview ++ (l.map (mrAppendOf ctx)).flatten := by
  intro l
  induction l with
  | nil => intro st; simp
  | cons x t ih =>
    intro st
    rw [List.foldl_cons, ih, structStep_manualReview]
    simp

/-! ## Digit content of the plan-token rewrites -/

/-- The global month-word replacement only rewrites letters: the digit
content of the token is untouched. -/
theorem filter_digits_replaceMonthsGo :
    ∀ (fuel : Nat) (l : List Char),
      (replaceMonthsGo fuel l).filter Char.isDigit = l.filter Char.isDigit := by
  intro fuel
  induction fuel with
  | zero => intro l; rfl
  | succ n ih =>
    intro l
    rw [replaceMonthsGo.eq_def]
    split
    all_goals
      first
        | (rename_i heq
           injection heq with hfe
           subst hfe
           simp +decide [List.filter_cons, ih])
        | simp +decide [List.filter_cons, ih]

theorem filter_digits_replaceMonths (l : List Char) :
    (replaceMonths l).filter Char.isDigit = l.filter Char.isDigit :=
  filter_digits_replaceMonthsGo l.length l

/-- Collapsing a digit-free suffix to `M` leaves the digit content
untouched. -/
theorem filter_digits_collapse_branch (suf : List Char) {l : List Char}
    (hsuf : suf.filter Char.isDigit = []) (h : endsWithL suf l = true) :
    (l.take (l.length - suf.length) ++ ['M']).filter Char.isDigit =
      l.filter Char.isDigit := by
  have hpre : suf.reverse <+: l.reverse := by
    simpa [endsWithL] using List.isPrefixOf_iff_prefix.mp h
  rcases hpre with ⟨t, ht⟩
  have hl : l = t.reverse ++ suf := by
    have h2 := congrArg List.reverse ht
    simpa [List.reverse_append] using h2.symm
  subst hl
  have hlen : (t.reverse ++ suf).length - suf.length = t.reverse.length := by
    simp
  rw [hlen, List.take_left]
  simp +decide [List.filter_append, hsuf]

theorem filter_digits_collapseMonthSuffix (s : String) :
    (collapseMonthSuffix s).toList.filter Char.isDigit =
      s.toList.filter Char.isDigit := by
  unfold collapseMonthSuffix
  dsimp only
  split
  · rename_i h
    exact filter_digits_collapse_branch "MONTHS".toList rfl h
  · split
    · rename_i h
      exact filter_digits_collapse_branch "MONTH".toList rfl h
    · split
      · rename_i h
        exact filter_digits_collapse_branch "MTHS".toList rfl h
      · split
        · rename_i h
          exact filter_digits_collapse_branch "MTH".toList rfl h
        · rfl

/-- The structured unit's plan mapper computes the specification's
`mapPlanToken`: scanning month words left to right and collapsing only a
month-word suffix leave the same digit string. -/
theorem mapPlanRaw_eq_spec (pr : Option String) : mapPlanRaw pr = mapPlanTokenSpec pr := by
  rcases pr with _ | s
  · rfl
  · by_cases h : s = ""
    · subst h; rfl
    · have hd : digitsOf (String.mk (replaceMonths (stripWs (jsUpper s)).toList)) =
          digitsOf (collapseMonthSuffix (stripWs (jsUpper s))) := by
        unfold digitsOf
        rw [filter_digits_collapseMonthSuffix]
        congr 1
        exact filter_digits_replaceMonths _
      show mapPlanRaw (some s) = mapPlanTokenSpec (some s)
      unfold mapPlanRaw mapPlanTokenSpec
      dsimp only
      rw [if_neg h, hd]
      rfl

/-! ## The loop's per-row attendance agrees with the specification's -/

/-- Pointwise: what one loop iteration appends to `attendance` is exactly
the specification's per-row emission. -/
theorem attAppendOf_eq_specRow (ctx : StructCtx) (p : Nat × Row) :
    attAppendOf ctx p =
      (if ctx.headerIdx = some p.1 ∨ (detectMonthHeaderInRow p.2).isSome ∨
          p.2.all (fun c => jsTrim (cellStr c) = "") then []
       else
         ctx.attCols.filterMap (fun q =>
           if isPresentMark (cellAt p.2 q.1) then
             some { member_mobile := (normalizeMobile2 (rowMobileCand p.2)).getD "NA"
                    member_name := (rowName2 p.2).getD "UNKNOWN"
                    attendance_date := q.2
                    attended_month := monthOfKey q.2
                    import_month := (ctx.rowImport.getD p.1 unknownImport).importMonth }
           else none)) := by
  unfold attAppendOf
  by_cases h1 : ctx.headerIdx = some p.1 ∨ (detectMonthHeaderInRow p.2).isSome
  · rw [if_pos h1, if_pos (by tauto)]
  · rw [if_neg h1]
    by_cases h2 : (p.2.all (fun c => jsTrim (cellStr c) = "")) = true
    · rw [if_pos h2, if_pos (by tauto)]
    · rw [if_neg h2, if_neg (by tauto)]
      rfl

/-- The `membersMap` effect of one non-skipped loop iteration: the row's
aggregate is written under its identity key, whether or not the row is also
flagged for manual review. -/
theorem structStep_membersMap (ids : Nat → String) (ctx : StructCtx) (st : StState)
    (p : Nat × Row)
    (h1 : ¬(ctx.headerIdx = some p.1 ∨ (detectMonthHeaderInRow p.2).isSome))
    (h2 : ¬(p.2.all (fun c => jsTrim (cellStr c) = "") = true))
    (h3 : ¬(rowName2 p.2 = none ∧ normalizeMobile2 (rowMobileCand p.2) = none ∧
            rowAttDates ctx p.2 = [])) :
    (structStep ids ctx st p).membersMap =
      aSet st.membersMap (rowMemberKey ids st p.2) (rowMemberVal ids ctx st p) := by
  unfold structStep rowMemberVal
  unfold rowMemberKey
  dsimp only
  rw [if_neg h1, if_neg h2, if_neg h3]
  rcases hmn : normalizeMobile2 (rowMobileCand p.2) with _ | mn
  · split <;> split <;> rfl
  · split <;> split <;> rfl

/-- What one loop iteration appends to `attendance` for a non-header,
non-section, non-blank row, flagged or not: the row's present-marked
events. -/
theorem attAppendOf_nonskip (ctx : StructCtx) (p : Nat × Row)
    (h1 : ¬(ctx.headerIdx = some p.1 ∨ (detectMonthHeaderInRow p.2).isSome))
    (h2 : ¬(p.2.all (fun c => jsTrim (cellStr c) = "") = true)) :
    attAppendOf ctx p = rowEvents ctx p.1 p.2 := by
  unfold attAppendOf
  rw [if_neg h1, if_neg h2]

/-! ## Bounds of the first unit's mobile normalisation -/

/-- A digit string accepted by the first unit's `normalizeMobile` has 8 to
10 digits and nothing but digits. -/
theorem normalizeMobile1_shape (v : JsVal) (s : String) (h : normalizeMobile1 v = some s) :
    8 ≤ s.toList.length ∧ s.toList.length ≤ 10 ∧ s.toList.all Char.isDigit = true := by
  unfold normalizeMobile1 at h
  dsimp only at h
  by_cases h0 : ¬ jsTruthy v = true
  · rw [if_pos h0] at h
    cases h
  · rw [if_neg h0] at h
    set d0 := (digitsOf (jsStr v)).toList with hd0
    set d1 := (if "91".toList.isPrefixOf d0 ∧ 10 < d0.length then d0.drop 2 else d0) with hd1
    set d2 := (if 10 < d1.length then d1.drop (d1.length - 10) else d1) with hd2
    by_cases h8 : 8 ≤ d2.length
    · rw [if_pos h8] at h
      have hs : String.mk d2 = s := Option.some.inj h
      subst hs
      show 8 ≤ d2.length ∧ d2.length ≤ 10 ∧ d2.all Char.isDigit = true
      have hsub1 : d1 ⊆ d0 := by
        rw [hd1]
        split
        · exact List.drop_subset _ _
        · exact List.Subset.refl d0
      have hsub2 : d2 ⊆ d1 := by
        rw [hd2]
        split
        · exact List.drop_subset _ _
        · exact List.Subset.refl d1
      refine ⟨h8, ?_, ?_⟩
      · rw [hd2]
        split
        · rename_i h10
          simp only [List.length_drop]
          omega
        · rename_i h10
          omega
      · rw [List.all_eq_true]
        intro c hc
        have hc0 : c ∈ d0 := hsub1 (hsub2 hc)
        have hcf : c ∈ (jsStr v).toList.filter Char.isDigit := hc0
        exact (List.mem_filter.mp hcf).2
    · rw [if_neg h8] at h
      cases h

/-! ## The claims -/

/-- Claim C1 (amended): when no row of the 10-row scan window qualifies as
the main header row, `parseExcel` returns the empty member list with the
untouched report as a success, not a thrown failure; and the `excel.ts`
`detectHeaderRow` falls back to row 0 when no row of its window reaches the
keyword threshold. -/
theorem claim1_amended (g : Grid) (ids : Nat → String) (now : String) (today : Nat)
    (h1 : (g.enum.take 10).find? (fun p => isMainHeaderRow p.2) = none)
    (h2 : ((g.take 12).enum.find? (fun p =>
        2 ≤ (p.2.filter (fun c =>
              headerKeywords3.any (fun kw => strContains (jsUpper (cellStrOr c)) kw))).length)) = none) :
    parseExcelRun g ids now today = .ok ([], initReport) ∧ detectHeaderRow g = 0 := by
  constructor
  · unfold parseExcelRun
    rw [h1]
  · unfold detectHeaderRow
    rw [h2]

/-- Witness for the amended C1 at a concrete header-less grid. -/
theorem claim1_witness :
    parseExcelRun gNoHeader idsA "T0" 2026 = .ok ([], initReport) ∧
    detectHeaderRow gNoHeader = 0 :=
  claim1_amended gNoHeader idsA "T0" 2026 (by rfl) (by rfl)

/-- Counterexample to C1 as stated: a grid with no qualifying header row in
any scan window parses to an empty success, and the fallback detector
answers row 0. -/
theorem claim1_counterexample :
    (gNoHeader.enum.take 10).find? (fun p => isMainHeaderRow p.2) = none ∧
    parseExcelRun gNoHeader idsA "T0" 2026 = .ok ([], initReport) ∧
    ((gNoHeader.take 12).enum.find? (fun p =>
        2 ≤ (p.2.filter (fun c =>
              headerKeywords3.any (fun kw => strContains (jsUpper (cellStrOr c)) kw))).length)) = none ∧
    detectHeaderRow gNoHeader = 0 :=
  ⟨rfl, rfl, rfl, rfl⟩

/-- Claim C2: every member aggregate of a structured parse has strictly
ascending, duplicate-free attendance; attended months equal to the sorted
deduplicated month-prefix set of the attendance dates; and a last
attendance equal to the final attendance entry, null exactly when the
attendance list is empty. -/
theorem claim2_member_invariants (g : Grid) (ids : Nat → String) (today : Nat)
    (mm : MMember) (hm : mm ∈ parseAggregates g ids today) :
    mm.attendance.Pairwise (· < ·) ∧ mm.attendance.Nodup ∧
    mm.attendedMonths = sortDedup (mm.attendance.map monthOfKey) ∧
    mm.lastAttendance = mm.attendance.getLast? ∧
    (mm.lastAttendance = none ↔ mm.attendance = []) := by
  unfold parseAggregates at hm
  rcases List.mem_map.mp hm with ⟨q, hq, rfl⟩
  have hinv : MMemberInv q.2 := stStateInv_structFold g ids today q hq
  have ha := finalizeAgg_attendance q.2
  have ham := finalizeAgg_attendedMonths q.2
  have hla := finalizeAgg_lastAttendance q.2 hinv
  rw [ha, ham, hla]
  rcases hinv with ⟨h1, h2, _⟩
  refine ⟨h1, h1.imp (fun hlt => Nat.ne_of_lt hlt), h2, rfl, ?_⟩
  exact List.getLast?_eq_none_iff

/-- Witness for C2 on the register sheet. -/
theorem claim2_witness :
    mmJohnAgg ∈ parseAggregates gRegister idsA 2026 ∧
    (mmJohnAgg.attendance.Pairwise (· < ·) ∧ mmJohnAgg.attendance.Nodup ∧
     mmJohnAgg.attendedMonths = sortDedup (mmJohnAgg.attendance.map monthOfKey) ∧
     mmJohnAgg.lastAttendance = mmJohnAgg.attendance.getLast? ∧
     (mmJohnAgg.lastAttendance = none ↔ mmJohnAgg.attendance = [])) :=
  have h : mmJohnAgg ∈ parseAggregates gRegister idsA 2026 := by
    rw [show parseAggregates gRegister idsA 2026 = [mmJohnAgg] from rfl]
    exact List.mem_singleton_self _
  ⟨h, claim2_member_invariants gRegister idsA 2026 mmJohnAgg h⟩

/-- Claim C3 (amended): the first unit's `normalizeMobile` indeed strips
non-digits, drops an over-long `91` prefix, keeps the last 10 digits and
accepts 8 or more, so its results carry 8 to 10 digits; both units map the
two scenario cells as described.  (The structured unit's variant, by
contrast, returns 8-or-more digit strings unchanged, so its results are not
bounded by 10 digits.) -/
theorem claim3_amended (v : JsVal) (s : String) (h : normalizeMobile1 v = some s) :
    (8 ≤ s.toList.length ∧ s.toList.length ≤ 10 ∧ s.toList.all Char.isDigit = true) ∧
    normalizeMobile1 (some (Cell.str "+91 98765 43210")) = some "9876543210" ∧
    normalizeMobile1 (some (Cell.str "1234567")) = none ∧
    normalizeMobile2 (some (Cell.str "+91 98765 43210")) = some "9876543210" ∧
    normalizeMobile2 (some (Cell.str "1234567")) = none :=
  ⟨normalizeMobile1_shape v s h, by decide, by decide, by decide, by decide⟩

/-- Witness for the amended C3 at the scenario input. -/
theorem claim3_witness :
    normalizeMobile1 (some (Cell.str "+91 98765 43210")) = some "9876543210" ∧
    (8 ≤ "9876543210".toList.length ∧ "9876543210".toList.length ≤ 10 ∧
     "9876543210".toList.all Char.isDigit = true) :=
  ⟨by decide,
   (claim3_amended (some (Cell.str "+91 98765 43210")) "9876543210" (by decide)).1⟩

/-- Counterexample to C3 as stated: the structured unit's `normalizeMobile`
returns an 11-digit string unchanged, longer than the claimed 10-digit
bound. -/
theorem claim3_counterexample :
    normalizeMobile2 (some (Cell.str "12345678901")) = some "12345678901" ∧
    10 < "12345678901".toList.length := by
  exact ⟨by decide, by decide⟩

/-- Claim C4 (amended): for a non-blank, non-header, non-section row that
resolves a name, a mobile or an attendance mark (and is therefore not
skipped outright), the loop appends exactly one ManualReviewItem when and
only when the plan is missing or unmapped or the mobile fails to normalise,
and the flag is additive: the row's attendance events are still emitted and
its member aggregate is still written under its identity key. -/
theorem claim4_amended (ids : Nat → String) (ctx : StructCtx) (st : StState) (p : Nat × Row)
    (h1 : ¬(ctx.headerIdx = some p.1 ∨ (detectMonthHeaderInRow p.2).isSome))
    (h2 : ¬(p.2.all (fun c => jsTrim (cellStr c) = "") = true))
    (h3 : ¬(rowName2 p.2 = none ∧ normalizeMobile2 (rowMobileCand p.2) = none ∧
            rowAttDates ctx p.2 = [])) :
    (structStep ids ctx st p).manualReview = st.manualReview ++ mrAppendOf ctx p ∧
    mrAppendOf ctx p =
      (if (rowPlanRaw ctx p.2 = none ∨ (mapPlanRaw (rowPlanRaw ctx p.2)).1 = none) ∨
          normalizeMobile2 (rowMobileCand p.2) = none
       then [reviewItemOf ctx p.1 p.2] else []) ∧
    (structStep ids ctx st p).attendance = st.attendance ++ rowEvents ctx p.1 p.2 ∧
    (structStep ids ctx st p).membersMap =
      aSet st.membersMap (rowMemberKey ids st p.2) (rowMemberVal ids ctx st p) := by
  refine ⟨structStep_manualReview ids ctx st p, ?_, ?_,
          structStep_membersMap ids ctx st p h1 h2 h3⟩
  · unfold mrAppendOf
    rw [if_neg h1, if_neg h2, if_neg h3]
  · rw [structStep_attendance, attAppendOf_nonskip ctx p h1 h2]

/-- Witness for the amended C4: a data row with a name and mobile but no
recognisable plan token is flagged and still recorded. -/
theorem claim4_witness :
    (structStep idsA (buildCtx gBadStart 2026) initStState
        (1, [Cell.str "JOHN", Cell.str "9876543210", Cell.str "abc"])).manualReview =
      initStState.manualReview ++ mrAppendOf (buildCtx gBadStart 2026)
        (1, [Cell.str "JOHN", Cell.str "9876543210", Cell.str "abc"]) ∧
    mrAppendOf (buildCtx gBadStart 2026)
        (1, [Cell.str "JOHN", Cell.str "9876543210", Cell.str "abc"]) =
      (if (rowPlanRaw (buildCtx gBadStart 2026)
              [Cell.str "JOHN", Cell.str "9876543210", Cell.str "abc"] = none ∨
           (mapPlanRaw (rowPlanRaw (buildCtx gBadStart 2026)
              [Cell.str "JOHN", Cell.str "9876543210", Cell.str "abc"])).1 = none) ∨
          normalizeMobile2 (rowMobileCand
              [Cell.str "JOHN", Cell.str "9876543210", Cell.str "abc"]) = none
       then [reviewItemOf (buildCtx gBadStart 2026) 1
              [Cell.str "JOHN", Cell.str "9876543210", Cell.str "abc"]] else []) ∧
    (structStep idsA (buildCtx gBadStart 2026) initStState
        (1, [Cell.str "JOHN", Cell.str "9876543210", Cell.str "abc"])).attendance =
      initStState.attendance ++ rowEvents (buildCtx gBadStart 2026) 1
        [Cell.str "JOHN", Cell.str "9876543210", Cell.str "abc"] ∧
    (structStep idsA (buildCtx gBadStart 2026) initStState
        (1, [Cell.str "JOHN", Cell.str "9876543210", Cell.str "abc"])).membersMap =
      aSet initStState.membersMap
        (rowMemberKey idsA initStState [Cell.str "JOHN", Cell.str "9876543210", Cell.str "abc"])
        (rowMemberVal idsA (buildCtx gBadStart 2026) initStState
          (1, [Cell.str "JOHN", Cell.str "9876543210", Cell.str "abc"])) :=
  claim4_amended idsA (buildCtx gBadStart 2026) initStState
    (1, [Cell.str "JOHN", Cell.str "9876543210", Cell.str "abc"])
    (by decide) (by decide) (by decide)

/-- Counterexample to C4 as stated: a non-blank, non-header, non-section
row whose plan and mobile both fail to resolve produces no ManualReviewItem
at all (and no member), because the loop skips identity-free rows before
the review check. -/
theorem claim4_counterexample :
    ¬((buildCtx gReviewSkip 2026).headerIdx = some 0 ∨
        (detectMonthHeaderInRow [Cell.str "abc"]).isSome) ∧
    ¬(([Cell.str "abc"] : Row).all (fun c => jsTrim (cellStr c) = "") = true) ∧
    rowPlanRaw (buildCtx gReviewSkip 2026) [Cell.str "abc"] = none ∧
    normalizeMobile2 (rowMobileCand [Cell.str "abc"]) = none ∧
    (parseExcelToStructured gReviewSkip idsA 2026).manualReview = [] ∧
    (parseExcelToStructured gReviewSkip idsA 2026).members = [] :=
  ⟨by decide, by decide, by decide, by decide, rfl, rfl⟩

/-- Claim C5 (amended): the attendance, manual-review and diagnostics
collections of the structured parse are functions of the grid (and clock)
alone — they do not depend on the generated-identifier supply; member
records do depend on it when a row has no normalizable mobile. -/
theorem claim5_amended (g : Grid) (today : Nat) (ids ids2 : Nat → String) :
    (parseExcelToStructured g ids today).attendance =
      (parseExcelToStructured g ids2 today).attendance ∧
    (parseExcelToStructured g ids today).manualReview =
      (parseExcelToStructured g ids2 today).manualReview ∧
    (parseExcelToStructured g ids today).diagnostics =
      (parseExcelToStructured g ids2 today).diagnostics := by
  refine ⟨?_, ?_, rfl⟩
  · show (structFold g ids today).attendance = (structFold g ids2 today).attendance
    unfold structFold
    rw [foldl_structStep_attendance, foldl_structStep_attendance]
  · show (structFold g ids today).manualReview = (structFold g ids2 today).manualReview
    unfold structFold
    rw [foldl_structStep_manualReview, foldl_structStep_manualReview]

/-- Counterexample to C5 as stated: on a row with a name but no mobile the
member identifier comes from the fresh-identifier generator, so two runs
with different generator outputs give different members. -/
theorem claim5_counterexample :
    (parseExcelToStructured gNameOnly idsA 2026).members ≠
      (parseExcelToStructured gNameOnly idsB 2026).members := by
  decide

/-- Claim C6 (code bug): on a sheet whose data row carries a truthy but
unparseable start-date cell, the first unit's row extraction throws
(`format` on the null result of `parseExcelDate`), instead of degrading the
cell to null. -/
theorem claim6_throw :
    parseExcelDate 2026 (some (Cell.str "abc")) = .ok none ∧
    jsTruthy (some (Cell.str "abc")) = true ∧
    parseExcelRun gBadStart idsA "T0" 2026 =
      Except.error "RangeError: Invalid time value" :=
  ⟨rfl, rfl, by rfl⟩

/-- Claim C7 (amended): the attendance events of the structured parse are
exactly the specification's per-row emission — one event per present-marked
detected date column of every non-header, non-section, non-blank row; the
collection is not deduplicated per (member, date) pair. -/
theorem claim7_amended (g : Grid) (ids : Nat → String) (today : Nat) :
    (parseExcelToStructured g ids today).attendance = attendanceSpecC7 g today := by
  show (structFold g ids today).attendance = _
  unfold structFold attendanceSpecC7
  rw [foldl_structStep_attendance]
  show [] ++ _ = _
  rw [List.nil_append]
  congr 1
  exact List.map_congr_left (fun p _ => attAppendOf_eq_specRow (buildCtx g today) p)

/-- Counterexample to C7 as stated: the register sheet with the same member
row repeated produces two attendance events for the same (member, date)
pair. -/
theorem claim7_counterexample :
    ((parseExcelToStructured gRegister idsA 2026).attendance.map
        (fun e => (e.member_mobile, e.attendance_date))) =
      [("9876543210", 20230201), ("9876543210", 20230201)] ∧
    ¬ ((parseExcelToStructured gRegister idsA 2026).attendance.map
        (fun e => (e.member_mobile, e.attendance_date))).Nodup := by
  exact ⟨rfl, by decide⟩

/-- Claim C8 (amended): the structured unit's `mapPlanRaw` computes the
specification's plan-token mapping — uppercase, strip whitespace, collapse
month words to `M`, keep the digits, map 1, 3, 6, 12 and nothing else — and
sends all four scenario tokens to Monthly/1.  (The first unit's `parsePlan`
removes only the first letter `M`, so it does not.) -/
theorem claim8_amended :
    (∀ pr, mapPlanRaw pr = mapPlanTokenSpec pr) ∧
    mapPlanRaw (some "1M") = (some "Monthly", some 1) ∧
    mapPlanRaw (some "1 month") = (some "Monthly", some 1) ∧
    mapPlanRaw (some "1MONTH") = (some "Monthly", some 1) ∧
    mapPlanRaw (some "1") = (some "Monthly", some 1) :=
  ⟨mapPlanRaw_eq_spec, by decide, by decide, by decide, by decide⟩

/-- Counterexample to C8 as stated: the first unit's `parsePlan` maps the
scenario token `1 month` to the unknown pair, not to Monthly/1. -/
theorem claim8_counterexample :
    parsePlan "1 month" = ("Unknown", none) ∧
    parsePlan "1 month" ≠ ("Monthly", some 1) := by
  exact ⟨by decide, by decide⟩

/-- Claim C9: for every output member of the structured parse,
`nextPaymentDueByPlan` is null when `planMonths` or `lastAttendance` is
null and otherwise equals `lastAttendance` plus `planMonths` calendar
months under `addMonths` clamping. -/
theorem claim9_nextPaymentDue (g : Grid) (ids : Nat → String) (today : Nat)
    (m : MemberOut) (hm : m ∈ (parseExcelToStructured g ids today).members) :
    m.nextPaymentDueByPlan =
      match m.planMonths, m.lastAttendance with
      | some p, some d => some (addMonthsKey d p)
      | _, _ => none := by
  have hmem : m ∈ (parseAggregates g ids today).map mkOutMember := hm
  rcases List.mem_map.mp hmem with ⟨mm, hmm, rfl⟩
  unfold parseAggregates at hmm
  rcases List.mem_map.mp hmm with ⟨q, _, rfl⟩
  exact mkOut_finalize_npd q.2

/-- Witness for C9 on the register sheet. -/
theorem claim9_witness :
    memberJohnOut ∈ (parseExcelToStructured gRegister idsA 2026).members ∧
    memberJohnOut.nextPaymentDueByPlan = some 20230501 :=
  have h : memberJohnOut ∈ (parseExcelToStructured gRegister idsA 2026).members := by
    rw [show (parseExcelToStructured gRegister idsA 2026).members = [memberJohnOut] from rfl]
    exact List.mem_singleton_self _
  ⟨h, (claim9_nextPaymentDue gRegister idsA 2026 memberJohnOut h).trans (by rfl)⟩

/-- Claim C10: any string cell whose trimmed text starts with `x` or `X` is
rejected by the structured unit's date parser, whatever the remainder of
the string holds. -/
theorem claim10_x_prefix (s : String)
    (h : strStartsWith (jsLower (jsTrim s)) "x" = true) :
    tryParseDate (some (Cell.str s)) = none := by
  show tryParseDateStr s = none
  unfold tryParseDateStr
  dsimp only
  rw [if_pos (Or.inr h)]

/-- Witness for C10: `x12/01/2023` is rejected although the remainder of
the text parses as a date. -/
theorem claim10_witness :
    strStartsWith (jsLower (jsTrim "x12/01/2023")) "x" = true ∧
    tryParseDate (some (Cell.str "x12/01/2023")) = none ∧
    tryParseDate (some (Cell.str "12/01/2023")) = some 20231201 :=
  ⟨by decide, claim10_x_prefix "x12/01/2023" (by decide), by rfl⟩
